/-
Verification of the natural-language specification of the
`coordinate-parser` Python package (`src/coordinate_parser/parser.py`)
against a shallow embedding of its code in Lean 4.

Modelling conventions, used throughout:

* Python strings are Lean `String`s / `List Char`; the scanning functions
  (`str.strip`, `str.lower`, `str.replace`, the regular expressions) are
  re-implemented character by character, following the source regexes.
* Python `float` arithmetic is modelled by exact rational arithmetic (`ℚ`).
  Every numeric literal that the parser manipulates is a short decimal
  numeral, and no claim under verification depends on rounding, overflow
  or `inf`/`nan` behaviour; the `math.isfinite` guard of
  `parse_coordinate` is therefore vacuous in the model (rationals are
  always finite) and is omitted.
* A Python function that can raise `ValueError` is modelled as a function
  into `Except PyErr α`; `PyErr` is a structured enumeration of every
  `ValueError` the module can construct, one constructor per message
  template (the doc comment of each constructor quotes the template, with
  `\x7b\x7d` marking an interpolated value).  `str(e)` substring tests are
  evaluated on the templates; the interpolated values are `repr`s of
  numbers or single uppercase letters and can neither create nor destroy
  an occurrence of any of the five fixed marker strings that
  `parse_coordinate` searches for.
* The floating-point geodetic series of `utm_to_latlon` (lines 86-148 of
  the source) is abstracted as an explicit parameter `core`; every claim
  under verification concerns only the input validation and the
  result-validation control flow surrounding it, which are embedded
  faithfully.
-/
import Mathlib

/-- Characters stripped by Python `str.strip()` (ASCII whitespace; the
rare non-ASCII Unicode space characters never occur in the inputs the
claims are about). -/
def isPySpace (c : Char) : Bool :=
  c = ' ' || c = '\t' || c = '\n' || c = '\r' || c = '\x0b' || c = '\x0c'

/-- ASCII decimal digit, the character class `\d` of the source regexes
(Python `re` with an ASCII pattern on these inputs). -/
def isPyDigit (c : Char) : Bool :=
  '0' ≤ c && c ≤ '9'

/-- Uppercase ASCII letter, the character class `[A-Z]`. -/
def isUpperAZ (c : Char) : Bool :=
  'A' ≤ c && c ≤ 'Z'

/-- The apostrophe character (U+0027), written by code point. -/
def squoteChar : Char := Char.ofNat 39

/-- The double-quote character (U+0022), written by code point. -/
def dquoteChar : Char := Char.ofNat 34

/-- Membership in the regex character class `[\x27"]` used for the
minute/second marks of the maritime patterns (the source class lists the
double quote twice). -/
def isQuoteMark (c : Char) : Bool :=
  c = squoteChar || c = dquoteChar

/-- Membership in the regex character class `[–-]` (en dash U+2013 or
hyphen-minus) used by maritime patterns 1 and 2. -/
def isDashMark (c : Char) : Bool :=
  c = '–' || c = '-'

/-- Python `str.lower()` restricted to the characters relevant to this
module: ASCII letters, plus the four uppercase Cyrillic letters that the
parser's Cyrillic hemisphere replacements can meet.  All other characters
are untouched. -/
def pyLowerChar (c : Char) : Char :=
  if c = 'С' then 'с'
  else if c = 'Ю' then 'ю'
  else if c = 'В' then 'в'
  else if c = 'З' then 'з'
  else c.toLower

/-- Python `str.upper()` restricted to ASCII letters (the UTM parser only
meets ASCII input in the claims under verification). -/
def pyUpperChar (c : Char) : Char := c.toUpper

/-- Python `str.strip()`, left half: drop leading whitespace. -/
def pyStripL (cs : List Char) : List Char := cs.dropWhile isPySpace

/-- Python `str.strip()`, right half: drop trailing whitespace. -/
def pyStripR (cs : List Char) : List Char :=
  (cs.reverse.dropWhile isPySpace).reverse

/-- Python `str.strip()`. -/
def pyStrip (cs : List Char) : List Char := pyStripR (pyStripL cs)

/-- One pass of Python `str.replace(pat, rep)` (all occurrences, left to
right, non-overlapping), fuelled by the length of the scanned list. -/
def pyReplaceAux (pat rep : List Char) : Nat → List Char → List Char
  | 0, cs => cs
  | _ + 1, [] => []
  | n + 1, c :: rest =>
    if pat.isPrefixOf (c :: rest) then
      rep ++ pyReplaceAux pat rep n ((c :: rest).drop pat.length)
    else
      c :: pyReplaceAux pat rep n rest

/-- Python `str.replace(pat, rep)` on character lists. -/
def pyReplace (cs pat rep : List Char) : List Char :=
  pyReplaceAux pat rep cs.length cs

/-- The eight `str.replace` calls of `parse_coordinate` (lines 417-426 of
the source): spelled-out cardinal directions, then the four lowercase
Cyrillic cardinal letters, each replaced by the matching single Latin
letter. -/
def cardinalReplacements : List (List Char × List Char) :=
  [ (['n','o','r','t','h'], ['n'])
  , (['s','o','u','t','h'], ['s'])
  , (['e','a','s','t'],     ['e'])
  , (['w','e','s','t'],     ['w'])
  , (['с'], ['n'])
  , (['ю'], ['s'])
  , (['в'], ['e'])
  , (['з'], ['w']) ]

/-- Apply the eight cardinal-direction replacements in source order. -/
def pyReplaceAll (cs : List Char) : List Char :=
  cardinalReplacements.foldl (fun acc pr => pyReplace acc pr.1 pr.2) cs

/-- Naive substring test: Python `pat in hay` for strings. -/
def listContainsSub (pat : List Char) : List Char → Bool
  | [] => pat.isPrefixOf []
  | c :: rest => pat.isPrefixOf (c :: rest) || listContainsSub pat rest

/-- Python `pat in hay` on `String`s. -/
def pyInStr (pat hay : String) : Bool := listContainsSub pat.data hay.data

/-- Numeric value of a list of ASCII digits, most significant first. -/
def digitsVal (ds : List Char) : Nat :=
  ds.foldl (fun a c => 10 * a + (c.toNat - 48)) 0

/-- Value of one numeric token, as Python `float(tok.replace(",", "."))`
reads it: an integer part, optionally a separator (`.` or `,`) and a
fractional part.  Accepts the shapes produced by both source regexes
(`\d+(?:[.,]\d+)?` of the tokenizer and `\d+\.?\d*` of the maritime
patterns, where the fractional digits may be empty). -/
def tokVal (t : List Char) : ℚ :=
  let ds := t.takeWhile isPyDigit
  match t.dropWhile isPyDigit with
  | _ :: fs => (digitsVal ds : ℚ) + (digitsVal fs : ℚ) / (10 : ℚ) ^ fs.length
  | [] => (digitsVal ds : ℚ)

/-- Python `int(q)` on a real value: truncation toward zero. -/
def pyIntTrunc (q : ℚ) : Int :=
  if q < 0 then ⌈q⌉ else ⌊q⌋

/-- Python `math.copysign(v, sign)` for a nonzero integral `sign`. -/
def pyCopysign (v : ℚ) (sign : Int) : ℚ :=
  if sign < 0 then -|v| else |v|

/-- Structured model of every `ValueError` the module raises.  Each
constructor corresponds to one `raise` site; its doc comment quotes the
Python message template, `\x7b\x7d` standing for an interpolated value. -/
inductive PyErr : Type
  /-- "UTM zone number \x7b\x7d must be between 1 and 60" -/
  | utmZoneNumber (z : Int)
  /-- "UTM zone letter \x27\x7b\x7d\x27 is invalid" -/
  | utmZoneLetter (l : String)
  /-- "Converted coordinates are outside valid ranges" -/
  | convertedOutsideRanges
  /-- "Latitude \x7b\x7d is outside valid range [-90, 90]" -/
  | latOutOfRange (q : ℚ)
  /-- "Longitude \x7b\x7d is outside valid range [-180, 180]" -/
  | lonOutOfRange (q : ℚ)
  /-- "Coordinate \x7b\x7d is outside reasonable range [-180, 180]" -/
  | coordOutOfRange (q : ℚ)
  /-- "Invalid hemisphere \x27\x7b\x7d\x27, must be N, S, E, or W" -/
  | invalidHemisphere (h : Char)
  /-- "Fractional degrees cannot be combined with minutes" -/
  | fracDegMinutes
  /-- "Fractional degrees cannot be combined with minutes and seconds" -/
  | fracDegMinSec
  /-- "Minutes \x7b\x7d must be less than 60" (maritime branch) -/
  | marMinutesTooLarge (q : ℚ)
  /-- "Seconds \x7b\x7d must be less than 60" (maritime branch) -/
  | marSecondsTooLarge (q : ℚ)
  /-- "Minutes must be less than 60" (general branch) -/
  | genMinutesTooLarge
  /-- "Seconds must be less than 60" (general branch) -/
  | genSecondsTooLarge
  /-- "Decimal values in multiple fields not allowed for degrees-minutes
  format" -/
  | decimalMultipleFields
  /-- "Invalid number of arguments" (`to_dec_deg`) -/
  | invalidArgCount
  /-- Bare `ValueError()` with empty message. -/
  | bareValue
  /-- "\x7b\x7d is not a valid coordinate string" (the interpolation is
  `repr` of the whole original input, recorded here). -/
  | notValidCoordinate (orig : String)
  deriving DecidableEq

/-- Message template of each error, the interpolated value replaced by
`\x7b\x7d`.  Used only for the substring dispatch of `parse_coordinate`;
the replaced values (number `repr`s, a single letter) contain no letter
sequence that could complete or break any of the five markers searched
for. -/
def pyErrTemplate : PyErr → String
  | .utmZoneNumber _ => "UTM zone number \x7b\x7d must be between 1 and 60"
  | .utmZoneLetter _ => "UTM zone letter \x27\x7b\x7d\x27 is invalid"
  | .convertedOutsideRanges => "Converted coordinates are outside valid ranges"
  | .latOutOfRange _ => "Latitude \x7b\x7d is outside valid range [-90, 90]"
  | .lonOutOfRange _ => "Longitude \x7b\x7d is outside valid range [-180, 180]"
  | .coordOutOfRange _ =>
      "Coordinate \x7b\x7d is outside reasonable range [-180, 180]"
  | .invalidHemisphere _ =>
      "Invalid hemisphere \x27\x7b\x7d\x27, must be N, S, E, or W"
  | .fracDegMinutes => "Fractional degrees cannot be combined with minutes"
  | .fracDegMinSec =>
      "Fractional degrees cannot be combined with minutes and seconds"
  | .marMinutesTooLarge _ => "Minutes \x7b\x7d must be less than 60"
  | .marSecondsTooLarge _ => "Seconds \x7b\x7d must be less than 60"
  | .genMinutesTooLarge => "Minutes must be less than 60"
  | .genSecondsTooLarge => "Seconds must be less than 60"
  | .decimalMultipleFields =>
      "Decimal values in multiple fields not allowed for degrees-minutes format"
  | .invalidArgCount => "Invalid number of arguments"
  | .bareValue => ""
  | .notValidCoordinate _ => "\x7b\x7d is not a valid coordinate string"

/-- The `except ValueError` dispatch at the end of `parse_coordinate`
(lines 470-479): an error is re-raised as-is exactly when its message
contains one of five marker substrings, otherwise it is wrapped into the
generic "not a valid coordinate string" error. -/
def errReraise (e : PyErr) : Bool :=
  pyInStr "outside valid range" (pyErrTemplate e) ||
  pyInStr "must be less than" (pyErrTemplate e) ||
  pyInStr "Decimal values in multiple fields" (pyErrTemplate e) ||
  pyInStr "Invalid hemisphere" (pyErrTemplate e) ||
  pyInStr "Fractional degrees cannot be combined" (pyErrTemplate e)

/-- Embedding of `_validate_coordinate` (source lines 483-519): `None`
passes through; otherwise the value is range-checked against the bounds
selected by `coord_type.lower()` and either returned unchanged or a
range error is raised. -/
def _validate_coordinate (value : Option ℚ) (coord_type : String) :
    Except PyErr (Option ℚ) :=
  match value with
  | none => .ok none
  | some q =>
    if (String.mk (coord_type.data.map pyLowerChar)) = "latitude" then
      if ¬(-90 ≤ q ∧ q ≤ 90) then .error (.latOutOfRange q) else .ok (some q)
    else if (String.mk (coord_type.data.map pyLowerChar)) = "longitude" then
      if ¬(-180 ≤ q ∧ q ≤ 180) then .error (.lonOutOfRange q) else .ok (some q)
    else
      if ¬(-180 ≤ q ∧ q ≤ 180) then .error (.coordOutOfRange q) else .ok (some q)

/-- Embedding of `to_dec_deg` (source lines 260-279): Python `*args`
becomes a list; 1, 2 or 3 arguments are combined positionally as degrees,
minutes, seconds, anything else (including zero arguments) raises the
argument-count error. -/
def to_dec_deg (args : List ℚ) : Except PyErr ℚ :=
  match args with
  | [d] => .ok d
  | [d, m] => .ok (d + m / 60)
  | [d, m, s] => .ok (d + m / 60 + s / 3600)
  | _ => .error .invalidArgCount

/-- Result of a maritime pattern match of `parse_coordinate`: either a
degrees-minutes-hemisphere match (patterns 1, 2 and 3 of the source, all
of which bind three groups) or a degrees-minutes-seconds-hemisphere match
(pattern 4, four groups).  Groups are kept as the raw matched substrings. -/
inductive MarMatch : Type
  | dm (deg min : List Char) (hemi : Char)
  | dms (deg min sec : List Char) (hemi : Char)
  deriving DecidableEq

/-- Greedy parse of the regex fragment `\d+\.?\d*` (one or more digits,
an optional dot, then any digits), returning the matched substring and
the rest.  Greedy parsing agrees with backtracking here because in every
maritime pattern the element following this fragment (degree sign, dash,
quote mark, `[A-Z]`, or end of string) can match neither a digit nor a
dot, so no shorter alternative can succeed. -/
def marNum (cs : List Char) : Option (List Char × List Char) :=
  let ds := cs.takeWhile isPyDigit
  let r := cs.dropWhile isPyDigit
  if ds.isEmpty then none
  else
    match r with
    | '.' :: r2 =>
      some (ds ++ '.' :: r2.takeWhile isPyDigit, r2.dropWhile isPyDigit)
    | _ => some (ds, r)

/-- Tail fragment `[\x27"]?([A-Z])$` of maritime patterns 1 and 3: an
optional quote mark, a captured uppercase letter, end of string.  When
the next character is a quote mark the regex must consume it (declining
it would put the quote mark where `[A-Z]` is required), so the greedy
choice is again complete. -/
def marTailOptQuote (cs : List Char) : Option Char :=
  match cs with
  | [q, c] => if isQuoteMark q && isUpperAZ c then some c else none
  | [c] => if isQuoteMark c then none else if isUpperAZ c then some c else none
  | _ => none

/-- Tail fragment `([A-Z])$` of maritime pattern 2. -/
def marTailLetter (cs : List Char) : Option Char :=
  match cs with
  | [c] => if isUpperAZ c then some c else none
  | _ => none

/-- Maritime pattern 1, `^(\d+\.?\d*)°[–-](\d+\.?\d*)[\x27"]?([A-Z])$`
(degree-dash-minutes with degree symbol, e.g. `40°–41.65\x27N`). -/
def matchP1 (cs : List Char) : Option MarMatch :=
  match marNum cs with
  | none => none
  | some (d, r1) =>
    match r1 with
    | '°' :: dash :: r2 =>
      if isDashMark dash then
        match marNum r2 with
        | none => none
        | some (m, r3) =>
          match marTailOptQuote r3 with
          | none => none
          | some h => some (.dm d m h)
      else none
    | _ => none

/-- Maritime pattern 2, `^(\d+\.?\d*)[–-](\d+\.?\d*)([A-Z])$`
(degree-dash-minutes without degree symbol, e.g. `54-05.48N`). -/
def matchP2 (cs : List Char) : Option MarMatch :=
  match marNum cs with
  | none => none
  | some (d, r1) =>
    match r1 with
    | dash :: r2 =>
      if isDashMark dash then
        match marNum r2 with
        | none => none
        | some (m, r3) =>
          match marTailLetter r3 with
          | none => none
          | some h => some (.dm d m h)
      else none
    | _ => none

/-- Maritime pattern 3, `^(\d+\.?\d*)°(\d+\.?\d*)[\x27"]?([A-Z])$`
(degree-minutes with degree symbol, e.g. `30°34.4\x27N`). -/
def matchP3 (cs : List Char) : Option MarMatch :=
  match marNum cs with
  | none => none
  | some (d, r1) =>
    match r1 with
    | '°' :: r2 =>
      match marNum r2 with
      | none => none
      | some (m, r3) =>
        match marTailOptQuote r3 with
        | none => none
        | some h => some (.dm d m h)
    | _ => none

/-- Maritime pattern 4,
`^(\d+\.?\d*)°(\d+\.?\d*)[\x27"](\d+\.?\d*)[\x27"]([A-Z])$`
(degree-minutes-seconds, e.g. `30°34\x2724.0"N`). -/
def matchP4 (cs : List Char) : Option MarMatch :=
  match marNum cs with
  | none => none
  | some (d, r1) =>
    match r1 with
    | '°' :: r2 =>
      match marNum r2 with
      | none => none
      | some (m, r3) =>
        match r3 with
        | q1 :: r4 =>
          if isQuoteMark q1 then
            match marNum r4 with
            | none => none
            | some (s, r5) =>
              match r5 with
              | [q2, c] =>
                if isQuoteMark q2 && isUpperAZ c then some (.dms d m s c)
                else none
              | _ => none
          else none
        | _ => none
    | _ => none

/-- The maritime pattern loop of `parse_coordinate` (lines 337-339): the
four patterns are tried in source order on the stripped string and the
first match wins. -/
def maritimeFind (cs : List Char) : Option MarMatch :=
  match matchP1 cs with
  | some m => some m
  | none =>
    match matchP2 cs with
    | some m => some m
    | none =>
      match matchP3 cs with
      | some m => some m
      | none => matchP4 cs

/-- Handler for a maritime match (source lines 340-411): hemisphere
letter validated against N/S/E/W, integral degrees enforced when minutes
(and seconds) are present, minutes and seconds range-checked, the value
combined, the hemisphere sign applied, and the result validated when
requested. -/
def maritimeHandle (m : MarMatch) (coord_type : String) (validate : Bool) :
    Except PyErr (Option ℚ) :=
  match m with
  | .dm dg mg h =>
    let degrees := tokVal dg
    let minutes := tokVal mg
    let hemi := pyUpperChar h
    if ¬(hemi = 'N' ∨ hemi = 'S' ∨ hemi = 'E' ∨ hemi = 'W') then
      .error (.invalidHemisphere hemi)
    else if degrees ≠ (pyIntTrunc degrees : ℚ) then
      .error .fracDegMinutes
    else if minutes ≥ 60 then
      .error (.marMinutesTooLarge minutes)
    else
      let result := degrees + minutes / 60
      let result := if hemi = 'S' ∨ hemi = 'W' then -result else result
      if validate then _validate_coordinate (some result) coord_type
      else .ok (some result)
  | .dms dg mg sg h =>
    let degrees := tokVal dg
    let minutes := tokVal mg
    let seconds := tokVal sg
    let hemi := pyUpperChar h
    if ¬(hemi = 'N' ∨ hemi = 'S' ∨ hemi = 'E' ∨ hemi = 'W') then
      .error (.invalidHemisphere hemi)
    else if degrees ≠ (pyIntTrunc degrees : ℚ) then
      .error .fracDegMinSec
    else if minutes ≥ 60 then
      .error (.marMinutesTooLarge minutes)
    else if seconds ≥ 60 then
      .error (.marSecondsTooLarge seconds)
    else
      let result := degrees + minutes / 60 + seconds / 3600
      let result := if hemi = 'S' ∨ hemi = 'W' then -result else result
      if validate then _validate_coordinate (some result) coord_type
      else .ok (some result)

/-- One step of `re.findall(r"\d+(?:[.,]\d+)?", s)`: scan for a digit,
take the maximal digit run, extend it through one separator (`.` or `,`)
exactly when at least one digit follows it, emit the token and continue.
Fuelled by the length of the scanned list (each emitted token consumes at
least one character). -/
def findTokensAux : Nat → List Char → List (List Char)
  | 0, _ => []
  | _ + 1, [] => []
  | n + 1, c :: rest =>
    if isPyDigit c then
      let ds := (c :: rest).takeWhile isPyDigit
      match (c :: rest).dropWhile isPyDigit with
      | sep :: r2 =>
        if sep = '.' || sep = ',' then
          let fs := r2.takeWhile isPyDigit
          if fs.isEmpty then ds :: findTokensAux n (sep :: r2)
          else (ds ++ sep :: fs) :: findTokensAux n (r2.dropWhile isPyDigit)
        else ds :: findTokensAux n (sep :: r2)
      | [] => [ds]
    else findTokensAux n rest

/-- The numeric tokenizer `re.findall(r"\d+(?:[.,]\d+)?", s)` of the
general branch of `parse_coordinate` (line 433). -/
def findTokens (cs : List Char) : List (List Char) :=
  findTokensAux cs.length cs

/-- The stripped input of `parse_coordinate` (source line 320). -/
def strippedOf (s : String) : List Char := pyStrip s.data

/-- The maritime match attempt of `parse_coordinate` (source line 338,
which strips the already stripped string once more). -/
def maritimeOf (s : String) : Option MarMatch :=
  maritimeFind (pyStrip (strippedOf s))

/-- The lower-cased, cardinal-replaced string the general branch works on
(source lines 414-426). -/
def generalTransform (s : String) : List Char :=
  pyReplaceAll ((pyStrip (strippedOf s)).map pyLowerChar)

/-- The sign selector of the general branch (source lines 429-430): `-1`
when the transformed string ends with `w` or `s`; overridden to `-1` when
it starts with `-`, `w` or `s` (the start check can only force the sign
negative, never reset it). -/
def generalNeg (t : List Char) : Int :=
  let fromEnd : Int :=
    if t.getLast? = some 'w' ∨ t.getLast? = some 's' then -1 else 1
  if t.head? = some '-' ∨ t.head? = some 'w' ∨ t.head? = some 's' then -1
  else fromEnd

/-- The numeric substrings of the original input that contain a decimal
separator (source lines 448-452, computed inside the dead branch). -/
def decimalParts (orig : String) : List (List Char) :=
  (findTokens orig.data).filter (fun t => t.contains '.' || t.contains ',')

/-- Body of the `try` block of the general branch of `parse_coordinate`
(source lines 433-469), given the token list of the transformed string,
the sign selector, and the raw original input (used only by the
unreachable multiple-decimals check, kept as in the source: its condition
`len(parts) >= 3` and then `len(parts) == 2` can never hold together). -/
def generalBody (toks : List (List Char)) (neg : Int) (orig : String)
    (coord_type : String) (validate : Bool) : Except PyErr (Option ℚ) :=
  if toks.isEmpty then .error .bareValue
  else
    let parts := toks.map tokVal
    if parts.length ≥ 2 ∧ parts.getD 1 0 ≥ 60 then .error .genMinutesTooLarge
    else if parts.length ≥ 3 ∧ parts.getD 2 0 ≥ 60 then .error .genSecondsTooLarge
    else if parts.length ≥ 3 ∧ parts.length = 2 ∧ (decimalParts orig).length > 1 then
      .error .decimalMultipleFields
    else
      match to_dec_deg parts with
      | .error e => .error e
      | .ok v =>
        let result := pyCopysign v neg
        if validate then _validate_coordinate (some result) coord_type
        else .ok (some result)

/-- Embedding of `parse_coordinate` (source lines 282-480) on string
input: `None`/numeric inputs are claims of the validator only and are not
modelled here.  An empty (all-whitespace) input returns `None`; a
maritime pattern match is handled by `maritimeHandle` and its errors
propagate unchanged; otherwise the general branch runs inside the
`try`/`except ValueError` dispatch, which re-raises errors whose message
carries one of five markers and wraps everything else into the generic
"is not a valid coordinate string" error naming the original input. -/
def parse_coordinate (s : String) (coord_type : String) (validate : Bool) :
    Except PyErr (Option ℚ) :=
  if (strippedOf s).isEmpty then .ok none
  else
    match maritimeOf s with
    | some m => maritimeHandle m coord_type validate
    | none =>
      let t := generalTransform s
      match generalBody (findTokens t) (generalNeg t) s coord_type validate with
      | .ok x => .ok x
      | .error e =>
        if errReraise e then .error e else .error (.notValidCoordinate s)

/-- The valid UTM zone letter string of the source (line 79 and line
186): C through W with I and O omitted; X is excluded as well. -/
def utmValidLetters : String := "CDEFGHJKLMNPQRSTUVW"

/-- Embedding of `utm_to_latlon` (source lines 50-158).  The
floating-point geodetic series (source lines 86-148) is abstracted as the
parameter `core`, mapping the zone number, the upper-cased zone letter,
the easting and the northing to the computed latitude/longitude pair; the
input validation (lines 74-81: zone number in `[1, 60]`, upper-cased
zone letter contained in `utmValidLetters` — Python `in`, i.e. substring
containment) and the result validation (lines 150-158, including the
branch raising "Converted coordinates are outside valid ranges" when a
validated coordinate comes back absent) are embedded faithfully. -/
def utm_to_latlon (core : Int → String → ℚ → ℚ → ℚ × ℚ)
    (zone_number : Int) (zone_letter : String) (easting northing : ℚ)
    (validate : Bool) : Except PyErr (ℚ × ℚ) :=
  if ¬(1 ≤ zone_number ∧ zone_number ≤ 60) then
    .error (.utmZoneNumber zone_number)
  else
    let zl : String := String.mk (zone_letter.data.map pyUpperChar)
    if ¬(pyInStr zl utmValidLetters) then .error (.utmZoneLetter zl)
    else
      let r := core zone_number zl easting northing
      if validate then
        match _validate_coordinate (some r.1) "latitude" with
        | .error e => .error e
        | .ok latd =>
          match _validate_coordinate (some r.2) "longitude" with
          | .error e => .error e
          | .ok lond =>
            match latd, lond with
            | some a, some b => .ok (a, b)
            | _, _ => .error .convertedOutsideRanges
      else .ok r

/-- Require `n` ASCII digits at the head of the list, returning them and
the rest. -/
def takeNDigits (n : Nat) (cs : List Char) : Option (List Char × List Char) :=
  let ds := cs.take n
  if ds.length = n && ds.all isPyDigit then some (ds, cs.drop n) else none

/-- Require one or more whitespace characters (`\s+`), greedily. -/
def takeWs1 (cs : List Char) : Option (List Char) :=
  if (cs.takeWhile isPySpace).isEmpty then none
  else some (cs.dropWhile isPySpace)

/-- Shared tail `(\d{6,7})\s+(\d{7,8})$` of UTM patterns 1 and 3:
easting then northing separated by whitespace, longest digit counts
first (regex greediness with backtracking). -/
def utmEastNorthSpaced (cs : List Char) : Option (ℚ × ℚ) :=
  let go : Nat → Nat → Option (ℚ × ℚ) := fun ne nn =>
    match takeNDigits ne cs with
    | none => none
    | some (e, r1) =>
      match takeWs1 r1 with
      | none => none
      | some r2 =>
        match takeNDigits nn r2 with
        | none => none
        | some (n, r3) =>
          if r3.isEmpty then some ((digitsVal e : ℚ), (digitsVal n : ℚ))
          else none
  (go 7 8).orElse fun _ => (go 7 7).orElse fun _ =>
    (go 6 8).orElse fun _ => go 6 7

/-- Zone fragment `(\d{1,2})` followed by a continuation, two digits
preferred (regex greediness with backtracking). -/
def utmZone (cs : List Char) (k : Nat → List Char → Option (Int × Char × ℚ × ℚ)) :
    Option (Int × Char × ℚ × ℚ) :=
  (match takeNDigits 2 cs with
   | some (z, r) => k (digitsVal z) r
   | none => none).orElse fun _ =>
    match takeNDigits 1 cs with
    | some (z, r) => k (digitsVal z) r
    | none => none

/-- Optional `(?:ZONE\s+)?` prefix of UTM patterns 1 and 3: the regex
first tries to consume the literal `ZONE` and at least one whitespace
character, then falls back to consuming nothing. -/
def utmZonePrefix (cs : List Char)
    (body : List Char → Option (Int × Char × ℚ × ℚ)) :
    Option (Int × Char × ℚ × ℚ) :=
  (match cs with
   | 'Z' :: 'O' :: 'N' :: 'E' :: r =>
     match takeWs1 r with
     | some r2 => body r2
     | none => none
   | _ => none).orElse fun _ => body cs

/-- UTM pattern 1,
`^(?:ZONE\s+)?(\d{1,2})([CDEFGHJKLMNPQRSTUVW])\s+(\d{6,7})\s+(\d{7,8})$`. -/
def utmMatch1 (cs : List Char) : Option (Int × Char × ℚ × ℚ) :=
  utmZonePrefix cs fun b =>
    utmZone b fun z r =>
      match r with
      | l :: r2 =>
        if utmValidLetters.data.contains l then
          match takeWs1 r2 with
          | none => none
          | some r3 =>
            match utmEastNorthSpaced r3 with
            | some (e, n) => some (z, l, e, n)
            | none => none
        else none
      | [] => none

/-- UTM pattern 2 (compact),
`^(\d{1,2})([CDEFGHJKLMNPQRSTUVW])(\d{6,7})E(\d{7,8})N$`. -/
def utmMatch2 (cs : List Char) : Option (Int × Char × ℚ × ℚ) :=
  utmZone cs fun z r =>
    match r with
    | l :: r2 =>
      if utmValidLetters.data.contains l then
        let go : Nat → Nat → Option (Int × Char × ℚ × ℚ) := fun ne nn =>
          match takeNDigits ne r2 with
          | none => none
          | some (e, r3) =>
            match r3 with
            | 'E' :: r4 =>
              match takeNDigits nn r4 with
              | none => none
              | some (n, r5) =>
                if r5 = ['N'] then
                  some (z, l, (digitsVal e : ℚ), (digitsVal n : ℚ))
                else none
            | _ => none
        (go 7 8).orElse fun _ => (go 7 7).orElse fun _ =>
          (go 6 8).orElse fun _ => go 6 7
      else none
    | [] => none

/-- UTM pattern 3,
`^(?:ZONE\s+)?(\d{1,2})\s+([CDEFGHJKLMNPQRSTUVW])\s+(\d{6,7})\s+(\d{7,8})$`. -/
def utmMatch3 (cs : List Char) : Option (Int × Char × ℚ × ℚ) :=
  utmZonePrefix cs fun b =>
    utmZone b fun z r =>
      match takeWs1 r with
      | none => none
      | some r2 =>
        match r2 with
        | l :: r3 =>
          if utmValidLetters.data.contains l then
            match takeWs1 r3 with
            | none => none
            | some r4 =>
              match utmEastNorthSpaced r4 with
              | some (e, n) => some (z, l, e, n)
              | none => none
          else none
        | [] => none

/-- The pattern loop of `parse_utm_coordinate` (source lines 204-218):
patterns tried in source order on the stripped, upper-cased input. -/
def utmFindMatch (cs : List Char) : Option (Int × Char × ℚ × ℚ) :=
  (utmMatch1 cs).orElse fun _ =>
    (utmMatch2 cs).orElse fun _ => utmMatch3 cs

/-- Embedding of `parse_utm_coordinate` (source lines 161-220): the
input is stripped and upper-cased, the three layout patterns are tried,
and on a match the extracted zone number, zone letter, easting and
northing go to `utm_to_latlon`, whose `ValueError`s are caught and
turned into `None`; no pattern match also gives `None`. -/
def parse_utm_coordinate (core : Int → String → ℚ → ℚ → ℚ × ℚ)
    (utm_string : String) (validate : Bool) :
    Except PyErr (Option (ℚ × ℚ)) :=
  let s := (pyStrip utm_string.data).map pyUpperChar
  match utmFindMatch s with
  | none => .ok none
  | some (z, l, e, n) =>
    match utm_to_latlon core z (String.mk [l]) e n validate with
    | .ok r => .ok (some r)
    | .error _ => .ok none

/-- Embedding of `parse_utm_coordinate_single` (source lines 223-257):
delegates to `parse_utm_coordinate` and projects the requested component,
any `coord_type` whose lower-cased form is not `"longitude"` defaulting
to latitude; the `Decimal(str(...))` conversion is the identity in the
rational model. -/
def parse_utm_coordinate_single (core : Int → String → ℚ → ℚ → ℚ × ℚ)
    (utm_string : String) (coord_type : String) (validate : Bool) :
    Except PyErr (Option ℚ) :=
  match parse_utm_coordinate core utm_string validate with
  | .error e => .error e
  | .ok none => .ok none
  | .ok (some r) =>
    if (String.mk (coord_type.data.map pyLowerChar)) = "longitude" then
      .ok (some r.2)
    else
      .ok (some r.1)

/-- Characters allowed in a magnitude text (claim C6): digits, decimal
separators, spaces, the degree sign, minute/second marks (straight or
prime), and the `d`/`D` degree marker — no sign and no hemisphere or
cardinal letters. -/
def magChars : List Char :=
  ['0', '1', '2', '3', '4', '5', '6', '7', '8', '9',
   '.', ',', ' ', '°', squoteChar, dquoteChar, '′', 'd', 'D']

/-- Membership in `magChars`. -/
def magChar (c : Char) : Bool := magChars.contains c

/-- A magnitude text: a string of magnitude characters containing at
least one digit. -/
def isMagnitudeText (X : String) : Bool :=
  X.data.all magChar && X.data.any isPyDigit

deriving instance DecidableEq for Except

/-- Degrees group of a maritime match. -/
def marDeg : MarMatch → ℚ
  | .dm d _ _ => tokVal d
  | .dms d _ _ _ => tokVal d

/-- Hemisphere letter of a maritime match. -/
def marHemi : MarMatch → Char
  | .dm _ _ h => h
  | .dms _ _ _ h => h


/-- The validator returns its argument: a successful validation of a
present value yields that very value. -/
theorem validate_ok_eq {q : ℚ} {k : String} {o : Option ℚ}
    (h : _validate_coordinate (some q) k = .ok o) : o = some q := by
  simp only [_validate_coordinate] at h
  split_ifs at h
  all_goals simp_all

/-- The validator never turns a present value into an absent one. -/
theorem validate_some_ne_ok_none (q : ℚ) (k : String) :
    _validate_coordinate (some q) k ≠ .ok none := by
  intro h
  exact Option.noConfusion (validate_ok_eq h)

/-- Errors of the validator are range errors. -/
theorem validate_error_shape {o : Option ℚ} {k : String} {e : PyErr}
    (h : _validate_coordinate o k = .error e) :
    ∃ q, e = .latOutOfRange q ∨ e = .lonOutOfRange q ∨ e = .coordOutOfRange q := by
  rcases o with _ | q
  · simp [_validate_coordinate] at h
  · simp only [_validate_coordinate] at h
    split_ifs at h
    all_goals simp_all
    all_goals exact ⟨q, by simp_all⟩

/-- The only error of `to_dec_deg` is the argument-count error. -/
theorem to_dec_deg_error {args : List ℚ} {e : PyErr}
    (h : to_dec_deg args = .error e) : e = .invalidArgCount := by
  rcases args with _ | ⟨a, _ | ⟨b, _ | ⟨c, _ | ⟨d, r⟩⟩⟩⟩ <;>
    simp only [to_dec_deg] at h <;> simp_all

/-- Four or more arguments always produce the argument-count error. -/
theorem to_dec_deg_four {args : List ℚ} (h : 4 ≤ args.length) :
    to_dec_deg args = .error .invalidArgCount := by
  rcases args with _ | ⟨a, _ | ⟨b, _ | ⟨c, _ | ⟨d, r⟩⟩⟩⟩ <;>
    simp_all [to_dec_deg]

/-- Claim C7: `to_dec_deg` combines 1 to 3 positional values as
degrees + minutes/60 + seconds/3600 with missing components zero, is
monotone in each component on the documented ranges, fails with the
argument-count error on 0 or at least 4 values, and applies no sign or
range restriction of its own (its defining equations hold for arbitrary
rational arguments). -/
theorem C7_to_dec_deg :
    (∀ d : ℚ, to_dec_deg [d] = .ok (d + 0 / 60 + 0 / 3600)) ∧
    (∀ d m : ℚ, to_dec_deg [d, m] = .ok (d + m / 60 + 0 / 3600)) ∧
    (∀ d m s : ℚ, to_dec_deg [d, m, s] = .ok (d + m / 60 + s / 3600)) ∧
    (to_dec_deg [] = .error .invalidArgCount) ∧
    (∀ args : List ℚ, 4 ≤ args.length →
      to_dec_deg args = .error .invalidArgCount) ∧
    (∀ d d' m s x y : ℚ, 0 ≤ m → m < 60 → 0 ≤ s → s < 60 → d ≤ d' →
      to_dec_deg [d, m, s] = .ok x → to_dec_deg [d', m, s] = .ok y → x ≤ y) ∧
    (∀ d m m' s x y : ℚ, 0 ≤ m → m < 60 → 0 ≤ s → s < 60 → m ≤ m' →
      to_dec_deg [d, m, s] = .ok x → to_dec_deg [d, m', s] = .ok y → x ≤ y) ∧
    (∀ d m s s' x y : ℚ, 0 ≤ m → m < 60 → 0 ≤ s → s < 60 → s ≤ s' →
      to_dec_deg [d, m, s] = .ok x → to_dec_deg [d, m, s'] = .ok y → x ≤ y) := by
  refine ⟨fun d => by simp [to_dec_deg], fun d m => by simp [to_dec_deg],
    fun d m s => rfl, rfl, fun args h => to_dec_deg_four h, ?_, ?_, ?_⟩
  · intro d d' m s x y _ _ _ _ hdd hx hy
    simp only [to_dec_deg, Except.ok.injEq] at hx hy
    subst hx; subst hy; gcongr
  · intro d m m' s x y _ _ _ _ hmm hx hy
    simp only [to_dec_deg, Except.ok.injEq] at hx hy
    subst hx; subst hy; gcongr
  · intro d m s s' x y _ _ _ _ hss hx hy
    simp only [to_dec_deg, Except.ok.injEq] at hx hy
    subst hx; subst hy; gcongr

/-- Witness for C7 at concrete inputs. -/
theorem C7_witness :
    to_dec_deg [(1 : ℚ), 2, 3] = .ok (1 + 2 / 60 + 3 / 3600) ∧
    ((1 : ℚ) + 2 / 60 + 3 / 3600 ≤ 5 + 2 / 60 + 3 / 3600) := by
  obtain ⟨-, -, h3, -, -, h6, -, -⟩ := C7_to_dec_deg
  exact ⟨h3 1 2 3,
    h6 1 5 2 3 _ _ (by norm_num) (by norm_num) (by norm_num) (by norm_num)
      (by norm_num) (h3 1 2 3) (h3 5 2 3)⟩

unseal Rat.add Rat.mul Rat.sub Rat.inv Nat.gcd in
/-- Claim C8: the range validator returns its input unchanged when within
bounds and raises the range error of the matching kind otherwise, with
bounds [-90, 90] for latitude and [-180, 180] for longitude and for any
unclassified kind; absent input passes through; consequently parsing
"95.0" as a validated latitude fails with the latitude range error while
parsing it unvalidated succeeds with value 95. -/
theorem C8_validator :
    (∀ q : ℚ, (-90 ≤ q ∧ q ≤ 90) →
      _validate_coordinate (some q) "latitude" = .ok (some q)) ∧
    (∀ q : ℚ, ¬(-90 ≤ q ∧ q ≤ 90) →
      _validate_coordinate (some q) "latitude" = .error (.latOutOfRange q)) ∧
    (∀ q : ℚ, (-180 ≤ q ∧ q ≤ 180) →
      _validate_coordinate (some q) "longitude" = .ok (some q)) ∧
    (∀ q : ℚ, ¬(-180 ≤ q ∧ q ≤ 180) →
      _validate_coordinate (some q) "longitude" = .error (.lonOutOfRange q)) ∧
    (∀ (q : ℚ) (k : String),
      String.mk (k.data.map pyLowerChar) ≠ "latitude" →
      String.mk (k.data.map pyLowerChar) ≠ "longitude" →
      _validate_coordinate (some q) k =
        if -180 ≤ q ∧ q ≤ 180 then .ok (some q)
        else .error (.coordOutOfRange q)) ∧
    (∀ k : String, _validate_coordinate none k = .ok none) ∧
    parse_coordinate "95.0" "latitude" true = .error (.latOutOfRange 95) ∧
    parse_coordinate "95.0" "latitude" false = .ok (some 95) := by
  refine ⟨?_, ?_, ?_, ?_, ?_, fun k => rfl, by decide, by decide⟩
  · intro q hq
    simp only [_validate_coordinate]
    rw [if_pos (show ({ data := List.map pyLowerChar "latitude".data } : String)
          = "latitude" by decide),
      if_neg (not_not_intro hq)]
  · intro q hq
    simp only [_validate_coordinate]
    rw [if_pos (show ({ data := List.map pyLowerChar "latitude".data } : String)
          = "latitude" by decide),
      if_pos hq]
  · intro q hq
    simp only [_validate_coordinate]
    rw [if_neg (show ¬({ data := List.map pyLowerChar "longitude".data } : String)
          = "latitude" by decide),
      if_pos (show ({ data := List.map pyLowerChar "longitude".data } : String)
          = "longitude" by decide),
      if_neg (not_not_intro hq)]
  · intro q hq
    simp only [_validate_coordinate]
    rw [if_neg (show ¬({ data := List.map pyLowerChar "longitude".data } : String)
          = "latitude" by decide),
      if_pos (show ({ data := List.map pyLowerChar "longitude".data } : String)
          = "longitude" by decide),
      if_pos hq]
  · intro q k hk1 hk2
    simp only [_validate_coordinate]
    rw [if_neg hk1, if_neg hk2]
    split_ifs <;> rfl

/-- Witness for C8 at concrete inputs. -/
theorem C8_witness :
    _validate_coordinate (some 10) "latitude" = .ok (some 10) ∧
    _validate_coordinate (some 95) "latitude" = .error (.latOutOfRange 95) ∧
    _validate_coordinate (some 100) "longitude" = .ok (some 100) ∧
    _validate_coordinate (some 185) "longitude" = .error (.lonOutOfRange 185) ∧
    _validate_coordinate (some 10) "kind" =
      (if (-180 : ℚ) ≤ 10 ∧ (10 : ℚ) ≤ 180 then Except.ok (some 10)
        else .error (.coordOutOfRange 10)) ∧
    _validate_coordinate none "kind" = .ok none := by
  obtain ⟨h1, h2, h3, h4, h5, h6, -, -⟩ := C8_validator
  exact ⟨h1 10 (by norm_num), h2 95 (by norm_num), h3 100 (by norm_num),
    h4 185 (by norm_num), h5 10 "kind" (by decide) (by decide), h6 "kind"⟩

/-- The UTM string parser is total: every branch of
`parse_utm_coordinate` catches the `ValueError`s of the transform and
returns a plain value. -/
theorem parse_utm_total (core : Int → String → ℚ → ℚ → ℚ × ℚ)
    (s : String) (v : Bool) :
    ∃ r, parse_utm_coordinate core s v = .ok r := by
  simp only [parse_utm_coordinate]
  rcases hm : utmFindMatch ((pyStrip s.data).map pyUpperChar) with _ | ⟨z, l, e, n⟩
  · exact ⟨none, rfl⟩
  · rcases h2 : utm_to_latlon core z (String.mk [l]) e n v with e1 | r
    · exact ⟨none, by simp [h2]⟩
    · exact ⟨some r, by simp [h2]⟩

/-- Claim C3: `parse_utm_coordinate` never raises — every input yields a
plain result, pattern mismatch and transform failure both surfacing as
absent; in particular the three documented invalid inputs give absent. -/
theorem C3_parse_utm_silent :
    (∀ (core : Int → String → ℚ → ℚ → ℚ × ℚ) (s : String) (v : Bool),
      ∃ r, parse_utm_coordinate core s v = .ok r) ∧
    (∀ (core : Int → String → ℚ → ℚ → ℚ × ℚ) (v : Bool),
      parse_utm_coordinate core "33I 391545 5819698" v = .ok none) ∧
    (∀ (core : Int → String → ℚ → ℚ → ℚ × ℚ) (v : Bool),
      parse_utm_coordinate core "61N 391545 5819698" v = .ok none) ∧
    (∀ (core : Int → String → ℚ → ℚ → ℚ × ℚ) (v : Bool),
      parse_utm_coordinate core "" v = .ok none) :=
  ⟨parse_utm_total, fun _ _ => rfl, fun _ _ => rfl, fun _ _ => rfl⟩

/-- Claim C10: `parse_utm_coordinate_single` never fails on its own — it
is absent exactly when `parse_utm_coordinate` is absent, and otherwise
returns the longitude component when the lower-cased `coord_type` is
"longitude" and the latitude component for every other `coord_type`,
recognized or not. -/
theorem C10_single_coordinate :
    ∀ (core : Int → String → ℚ → ℚ → ℚ × ℚ) (s t : String) (v : Bool),
      (∃ r, parse_utm_coordinate_single core s t v = .ok r) ∧
      (parse_utm_coordinate_single core s t v = .ok none ↔
        parse_utm_coordinate core s v = .ok none) ∧
      (∀ la lo : ℚ, parse_utm_coordinate core s v = .ok (some (la, lo)) →
        (String.mk (t.data.map pyLowerChar) ≠ "longitude" →
          parse_utm_coordinate_single core s t v = .ok (some la)) ∧
        (String.mk (t.data.map pyLowerChar) = "longitude" →
          parse_utm_coordinate_single core s t v = .ok (some lo))) := by
  intro core s t v
  obtain ⟨r, hr⟩ := parse_utm_total core s v
  rcases r with _ | ⟨la0, lo0⟩
  · refine ⟨⟨none, ?_⟩, ?_, ?_⟩
    · simp [parse_utm_coordinate_single, hr]
    · simp [parse_utm_coordinate_single, hr]
    · intro la lo hp
      rw [hr] at hp
      simp at hp
  · have hs : parse_utm_coordinate_single core s t v =
        if String.mk (t.data.map pyLowerChar) = "longitude"
        then .ok (some lo0) else .ok (some la0) := by
      simp [parse_utm_coordinate_single, hr]
    refine ⟨?_, ?_, ?_⟩
    · rw [hs]; split_ifs
      · exact ⟨some lo0, rfl⟩
      · exact ⟨some la0, rfl⟩
    · rw [hs, hr]
      constructor
      · intro h; split_ifs at h <;> simp_all
      · intro h; simp_all
    · intro la lo hp
      rw [hr] at hp
      simp only [Except.ok.injEq, Option.some.injEq, Prod.mk.injEq] at hp
      obtain ⟨h1, h2⟩ := hp
      subst h1; subst h2
      constructor
      · intro hne; rw [hs, if_neg hne]
      · intro heq; rw [hs, if_pos heq]

unseal Rat.add Rat.mul Rat.sub Rat.inv Nat.gcd in
/-- Witness for C10 at concrete inputs. -/
theorem C10_witness :
    parse_utm_coordinate_single (fun _ _ _ _ => ((5 : ℚ), (7 : ℚ)))
      "33N 391545 5819698" "bogus" false = .ok (some 5) ∧
    parse_utm_coordinate_single (fun _ _ _ _ => ((5 : ℚ), (7 : ℚ)))
      "33N 391545 5819698" "LONGITUDE" false = .ok (some 7) := by
  have h := C10_single_coordinate (fun _ _ _ _ => ((5 : ℚ), (7 : ℚ)))
    "33N 391545 5819698" "bogus" false
  have h2 := C10_single_coordinate (fun _ _ _ _ => ((5 : ℚ), (7 : ℚ)))
    "33N 391545 5819698" "LONGITUDE" false
  have hp : parse_utm_coordinate (fun _ _ _ _ => ((5 : ℚ), (7 : ℚ)))
      "33N 391545 5819698" false = .ok (some (5, 7)) := by decide
  exact ⟨((h.2.2 5 7 hp).1 (by decide)), ((h2.2.2 5 7 hp).2 (by decide))⟩

unseal Rat.add Rat.mul Rat.sub Rat.inv Nat.gcd in
/-- Counterexample to claim C2: with the transform producing latitude 95,
`utm_to_latlon` under validation raises the validator's own field
message, not the wrapped "Converted coordinates are outside valid
ranges" one — the wrapping branch is unreachable because the validator
raises instead of returning an absent value. -/
theorem C2_counterexample :
    utm_to_latlon (fun _ _ _ _ => ((95 : ℚ), 0)) 33 "N" 500000 4000000 true
      = .error (.latOutOfRange 95) ∧
    (PyErr.latOutOfRange 95 ≠ .convertedOutsideRanges) :=
  ⟨by decide, by decide⟩

/-- Claim C2 (amended): `utm_to_latlon` can never raise the wrapped
"Converted coordinates are outside valid ranges" error; an out-of-range
conversion surfaces as the validator's field-specific range error
(latitude checked first, then longitude). -/
theorem C2_amended :
    (∀ (core : Int → String → ℚ → ℚ → ℚ × ℚ) (z : Int) (l : String)
        (e n : ℚ) (v : Bool),
      utm_to_latlon core z l e n v ≠ .error .convertedOutsideRanges) ∧
    (∀ (core : Int → String → ℚ → ℚ → ℚ × ℚ) (z : Int) (l : String)
        (e n lat lon : ℚ),
      1 ≤ z → z ≤ 60 →
      pyInStr (String.mk (l.data.map pyUpperChar)) utmValidLetters = true →
      core z (String.mk (l.data.map pyUpperChar)) e n = (lat, lon) →
      (¬(-90 ≤ lat ∧ lat ≤ 90) →
        utm_to_latlon core z l e n true = .error (.latOutOfRange lat)) ∧
      ((-90 ≤ lat ∧ lat ≤ 90) → ¬(-180 ≤ lon ∧ lon ≤ 180) →
        utm_to_latlon core z l e n true = .error (.lonOutOfRange lon))) := by
  constructor
  · intro core z l e n v h
    simp only [utm_to_latlon] at h
    split_ifs at h
    all_goals try exact PyErr.noConfusion (Except.error.inj h)
    all_goals rcases hv : core z (String.mk (l.data.map pyUpperChar)) e n with ⟨lat, lon⟩
    all_goals rw [hv] at h
    all_goals dsimp only at h
    all_goals rcases h1 : _validate_coordinate (some lat) "latitude" with e1 | o1
    all_goals rw [h1] at h
    · obtain ⟨q, hq⟩ := validate_error_shape h1
      rcases hq with rfl | rfl | rfl <;>
        exact PyErr.noConfusion (Except.error.inj h)
    · have ho1 := validate_ok_eq h1
      subst ho1
      rcases h2 : _validate_coordinate (some lon) "longitude" with e2 | o2
      all_goals rw [h2] at h
      · obtain ⟨q, hq⟩ := validate_error_shape h2
        rcases hq with rfl | rfl | rfl <;>
          exact PyErr.noConfusion (Except.error.inj h)
      · have ho2 := validate_ok_eq h2
        subst ho2
        exact Except.noConfusion h
  · intro core z l e n lat lon hz1 hz2 hl hcore
    have hz : ¬¬(1 ≤ z ∧ z ≤ 60) := not_not_intro ⟨hz1, hz2⟩
    constructor
    · intro hlat
      have h1 : _validate_coordinate (some lat) "latitude"
          = .error (.latOutOfRange lat) := by
        simp only [_validate_coordinate]
        rw [if_pos (show ({ data := List.map pyLowerChar "latitude".data } : String)
              = "latitude" by decide),
          if_pos hlat]
      simp only [utm_to_latlon]
      rw [if_neg hz, if_neg (by simp [hl]), hcore]
      simp [h1]
    · intro hlat hlon
      have h1 : _validate_coordinate (some lat) "latitude" = .ok (some lat) := by
        simp only [_validate_coordinate]
        rw [if_pos (show ({ data := List.map pyLowerChar "latitude".data } : String)
              = "latitude" by decide),
          if_neg (not_not_intro hlat)]
      have h2 : _validate_coordinate (some lon) "longitude"
          = .error (.lonOutOfRange lon) := by
        simp only [_validate_coordinate]
        rw [if_neg (show ¬({ data := List.map pyLowerChar "longitude".data } : String)
              = "latitude" by decide),
          if_pos (show ({ data := List.map pyLowerChar "longitude".data } : String)
              = "longitude" by decide),
          if_pos hlon]
      simp only [utm_to_latlon]
      rw [if_neg hz, if_neg (by simp [hl]), hcore]
      simp [h1, h2]

unseal Rat.add Rat.mul Rat.sub Rat.inv Nat.gcd in
/-- Witness for the amended claim C2 at concrete inputs. -/
theorem C2_amended_witness :
    utm_to_latlon (fun _ _ _ _ => ((95 : ℚ), 0)) 7 "K" 1 2 true
      = .error (.latOutOfRange 95) ∧
    utm_to_latlon (fun _ _ _ _ => ((10 : ℚ), 200)) 7 "K" 1 2 true
      = .error (.lonOutOfRange 200) := by
  have h1 := (C2_amended.2 (fun _ _ _ _ => ((95 : ℚ), 0)) 7 "K" 1 2 95 0
    (by norm_num) (by norm_num) (by decide) rfl).1 (by norm_num)
  have h2 := (C2_amended.2 (fun _ _ _ _ => ((10 : ℚ), 200)) 7 "K" 1 2 10 200
    (by norm_num) (by norm_num) (by decide) rfl).2 (by norm_num) (by norm_num)
  exact ⟨h1, h2⟩

/-- Python substring containment of a single-character pattern is list
membership. -/
theorem containsSub_singleton (c : Char) (hay : List Char) :
    listContainsSub [c] hay = hay.contains c := by
  induction hay with
  | nil => rfl
  | cons h t ih =>
    simp only [listContainsSub, List.isPrefixOf, Bool.and_true, ih,
      List.contains_cons]

/-- `utm_to_latlon` depends on the zone letter only through its
upper-cased form. -/
theorem utm_letter_irrelevant (core : Int → String → ℚ → ℚ → ℚ × ℚ)
    (z : Int) (l1 l2 : String) (e n : ℚ) (v : Bool)
    (h : String.mk (l1.data.map pyUpperChar) = String.mk (l2.data.map pyUpperChar)) :
    utm_to_latlon core z l1 e n v = utm_to_latlon core z l2 e n v := by
  simp only [utm_to_latlon, h]

/-- Input validation of `utm_to_latlon` without result validation: an
error occurs exactly when the zone number is out of `[1, 60]` or the
upper-cased zone letter fails Python substring containment in the
valid-letter string. -/
theorem C4_main :
    ∀ (core : Int → String → ℚ → ℚ → ℚ × ℚ) (z : Int) (l : String) (e n : ℚ),
      (∃ err, utm_to_latlon core z l e n false = .error err) ↔
      (¬(1 ≤ z ∧ z ≤ 60) ∨
        pyInStr (String.mk (l.data.map pyUpperChar)) utmValidLetters = false) := by
  intro core z l e n
  simp only [utm_to_latlon]
  by_cases hz : (1 ≤ z ∧ z ≤ 60)
  · rw [if_neg (not_not_intro hz)]
    by_cases hl : pyInStr (String.mk (l.data.map pyUpperChar)) utmValidLetters = true
    · rw [if_neg (by simp [hl])]
      simp [hz, hl]
    · rw [if_pos (by simp_all)]
      simp_all
  · rw [if_pos hz]
    simp [hz]

unseal Rat.add Rat.mul Rat.sub Rat.inv Nat.gcd in
/-- Counterexample to claim C4: the zone letter check is Python `in`,
i.e. substring containment, so the empty string is accepted although it
is none of the valid zone letters; moreover the valid-letter set has 19
elements, not 20. -/
theorem C4_counterexample :
    utm_to_latlon (fun _ _ _ _ => ((0 : ℚ), (0 : ℚ))) 33 "" 9 9 false
      = .ok (0, 0) ∧
    utmValidLetters.data.length = 19 ∧
    ("" ∉ utmValidLetters.data.map (fun c => String.mk [c])) :=
  ⟨by decide, by decide, by decide⟩

/-- Claim C4 (amended): without result validation, `utm_to_latlon`
raises exactly when the zone number is outside `[1, 60]` or the
upper-cased zone letter is not a substring of the valid-letter string
`CDEFGHJKLMNPQRSTUVW`; for single-character letters this is membership
in that 19-letter set, the check is case-insensitive, and I, O and X are
excluded. -/
theorem C4_amended :
    (∀ (core : Int → String → ℚ → ℚ → ℚ × ℚ) (z : Int) (l : String) (e n : ℚ),
      (∃ err, utm_to_latlon core z l e n false = .error err) ↔
      (¬(1 ≤ z ∧ z ≤ 60) ∨
        pyInStr (String.mk (l.data.map pyUpperChar)) utmValidLetters = false)) ∧
    (∀ (core : Int → String → ℚ → ℚ → ℚ × ℚ) (z : Int) (c : Char) (e n : ℚ),
      (∃ err, utm_to_latlon core z (String.mk [c]) e n false = .error err) ↔
      (¬(1 ≤ z ∧ z ≤ 60) ∨ pyUpperChar c ∉ utmValidLetters.data)) ∧
    (∀ (core : Int → String → ℚ → ℚ → ℚ × ℚ) (z : Int) (c : Char) (e n : ℚ)
        (v : Bool), c ∈ utmValidLetters.data →
      utm_to_latlon core z (String.mk [pyLowerChar c]) e n v =
        utm_to_latlon core z (String.mk [c]) e n v) ∧
    utmValidLetters.data.length = 19 ∧
    ('I' ∉ utmValidLetters.data ∧ 'O' ∉ utmValidLetters.data ∧
      'X' ∉ utmValidLetters.data) := by
  refine ⟨C4_main, ?_, ?_, by decide, by decide⟩
  · intro core z c e n
    rw [C4_main core z (String.mk [c]) e n]
    have hsub : pyInStr (String.mk ((String.mk [c]).data.map pyUpperChar))
        utmValidLetters = utmValidLetters.data.contains (pyUpperChar c) := by
      show listContainsSub [pyUpperChar c] utmValidLetters.data = _
      exact containsSub_singleton _ _
    rw [hsub]
    simp
  · intro core z c e n v hc
    apply utm_letter_irrelevant
    fin_cases hc <;> decide

/-- The validator never raises the multiple-decimals error. -/
theorem validate_ne_decimal (o : Option ℚ) (k : String) :
    _validate_coordinate o k ≠ .error .decimalMultipleFields := by
  intro h
  obtain ⟨q, hq⟩ := validate_error_shape h
  rcases hq with h' | h' | h' <;> exact PyErr.noConfusion h'

/-- The maritime handler never raises the multiple-decimals error. -/
theorem maritimeHandle_ne_decimal (m : MarMatch) (k : String) (v : Bool) :
    maritimeHandle m k v ≠ .error .decimalMultipleFields := by
  intro h
  rcases m with ⟨d, mg, hh⟩ | ⟨d, mg, sg, hh⟩ <;>
    simp only [maritimeHandle] at h <;>
    split_ifs at h <;>
    first
      | exact PyErr.noConfusion (Except.error.inj h)
      | exact validate_ne_decimal _ _ h

/-- The general branch never raises the multiple-decimals error: the
branch that would raise it sits under the conditions `len(parts) >= 3`
and `len(parts) == 2` at once. -/
theorem generalBody_ne_decimal (toks : List (List Char)) (neg : Int)
    (orig k : String) (v : Bool) :
    generalBody toks neg orig k v ≠ .error .decimalMultipleFields := by
  intro h
  simp only [generalBody] at h
  rcases htd : to_dec_deg (toks.map tokVal) with e1 | val <;>
    rw [htd] at h <;> dsimp only at h <;> split_ifs at h <;>
    first
      | exact PyErr.noConfusion (Except.error.inj h)
      | omega
      | exact validate_ne_decimal _ _ h
      | exact Except.noConfusion h
      | (have he := to_dec_deg_error htd; subst he;
         exact PyErr.noConfusion (Except.error.inj h))

/-- Claim C1 (amended): the multiple-decimals restriction is never
enforced — `parse_coordinate` cannot raise the "Decimal values in
multiple fields not allowed for degrees-minutes format" error on any
input, because the check is nested inside the 3-or-more-token branch
under a 2-token condition; a 2-token input with decimal separators in
both fields parses as degrees plus fractional minutes. -/
theorem C1_amended :
    ∀ (s k : String) (v : Bool),
      parse_coordinate s k v ≠ .error .decimalMultipleFields := by
  intro s k v h
  unfold parse_coordinate at h
  split_ifs at h
  rcases hm : maritimeOf s with _ | m <;> rw [hm] at h <;> dsimp only at h
  · rcases hg : generalBody (findTokens (generalTransform s))
        (generalNeg (generalTransform s)) s k v with e1 | x <;>
      rw [hg] at h <;> dsimp only at h
    · split_ifs at h
      · have : e1 = .decimalMultipleFields := Except.error.inj h
        subst this
        exact generalBody_ne_decimal _ _ _ _ _ hg
      · exact PyErr.noConfusion (Except.error.inj h)
    · exact Except.noConfusion h
  · exact maritimeHandle_ne_decimal m k v h

unseal Rat.add Rat.mul Rat.sub Rat.inv Nat.gcd in
/-- Counterexample to claim C1: `23.4 14.2` tokenizes to exactly two
numeric tokens, both carrying a decimal separator, yet it parses
successfully to 23.4 + 14.2/60 = 7091/300 instead of being rejected. -/
theorem C1_counterexample :
    parse_coordinate "23.4 14.2" "coordinate" true = .ok (some (7091 / 300)) ∧
    (findTokens (generalTransform "23.4 14.2")).length = 2 ∧
    (decimalParts "23.4 14.2").length = 2 :=
  ⟨by decide, by decide, by decide⟩

/-- With at least four tokens whose minutes and seconds entries pass the
range checks, the general branch fails with the argument-count error of
`to_dec_deg`. -/
theorem generalBody_four (T : List (List Char)) (neg : Int) (orig k : String)
    (v : Bool) (hlen : 4 ≤ T.length)
    (hp1 : (T.map tokVal).getD 1 0 < 60)
    (hp2 : (T.map tokVal).getD 2 0 < 60) :
    generalBody T neg orig k v = .error .invalidArgCount := by
  have hT : T ≠ [] := by
    intro hnil; rw [hnil] at hlen; simp at hlen
  simp only [generalBody]
  rw [to_dec_deg_four (by rw [List.length_map]; exact hlen)]
  split_ifs with h1 h2 h3 h4
  · exact absurd (List.isEmpty_iff.mp h1) hT
  · exact absurd h2.2 (not_le.mpr hp1)
  · exact absurd h3.2 (not_le.mpr hp2)
  · exact absurd h4.2.1 (by omega)
  all_goals rfl

/-- Claim C5: a general-format input with 4 or more numeric tokens whose
token 1 and token 2 pass the minute/second range checks raises the
generic "is not a valid coordinate string" error naming the original
input: the combiner fails on more than 3 arguments and its
argument-count message carries no re-raise marker, so it is wrapped. -/
theorem C5_four_tokens_generic_error :
    ∀ (s k : String) (v : Bool),
      maritimeOf s = none →
      4 ≤ (findTokens (generalTransform s)).length →
      ((findTokens (generalTransform s)).map tokVal).getD 1 0 < 60 →
      ((findTokens (generalTransform s)).map tokVal).getD 2 0 < 60 →
      parse_coordinate s k v = .error (.notValidCoordinate s) := by
  intro s k v hm hlen hp1 hp2
  have hbody := generalBody_four (findTokens (generalTransform s))
    (generalNeg (generalTransform s)) s k v hlen hp1 hp2
  have hne : ¬((strippedOf s).isEmpty = true) := by
    intro hemp
    have hnil : strippedOf s = [] := List.isEmpty_iff.mp hemp
    have ht : generalTransform s = [] := by
      simp only [generalTransform, hnil]
      rfl
    rw [ht] at hlen
    exact absurd hlen (by norm_num [findTokens, findTokensAux])
  unfold parse_coordinate
  rw [if_neg hne, hm]
  dsimp only
  rw [hbody]
  dsimp only
  rw [if_neg (by decide)]

/-- Claim C9 (amended): an input matching a maritime pattern whose
hemisphere letter is one of N, S, E, W and whose degrees field has a
nonzero fractional part raises the "Fractional degrees cannot be
combined with minutes" (resp. "... minutes and seconds") error,
regardless of the validate flag.  (Without the hemisphere restriction
the claim fails: the hemisphere check runs first.) -/
theorem C9_amended :
    (∀ (s k : String) (v : Bool) (dg mg : List Char) (hh : Char),
      maritimeOf s = some (.dm dg mg hh) →
      (pyUpperChar hh = 'N' ∨ pyUpperChar hh = 'S' ∨
        pyUpperChar hh = 'E' ∨ pyUpperChar hh = 'W') →
      tokVal dg ≠ (pyIntTrunc (tokVal dg) : ℚ) →
      parse_coordinate s k v = .error .fracDegMinutes) ∧
    (∀ (s k : String) (v : Bool) (dg mg sg : List Char) (hh : Char),
      maritimeOf s = some (.dms dg mg sg hh) →
      (pyUpperChar hh = 'N' ∨ pyUpperChar hh = 'S' ∨
        pyUpperChar hh = 'E' ∨ pyUpperChar hh = 'W') →
      tokVal dg ≠ (pyIntTrunc (tokVal dg) : ℚ) →
      parse_coordinate s k v = .error .fracDegMinSec) := by
  have hstrip : ∀ s : String, (strippedOf s).isEmpty = true →
      maritimeOf s = none := by
    intro s hemp
    have hnil : strippedOf s = [] := List.isEmpty_iff.mp hemp
    simp only [maritimeOf, hnil]
    rfl
  constructor
  · intro s k v dg mg hh hm hhem hfrac
    unfold parse_coordinate
    rw [if_neg (by
      intro hemp
      rw [hstrip s hemp] at hm
      exact Option.noConfusion hm)]
    rw [hm]
    dsimp only
    simp only [maritimeHandle]
    rw [if_neg (not_not_intro hhem), if_pos hfrac]
  · intro s k v dg mg sg hh hm hhem hfrac
    unfold parse_coordinate
    rw [if_neg (by
      intro hemp
      rw [hstrip s hemp] at hm
      exact Option.noConfusion hm)]
    rw [hm]
    dsimp only
    simp only [maritimeHandle]
    rw [if_neg (not_not_intro hhem), if_pos hfrac]

unseal Rat.add Rat.mul Rat.sub Rat.inv Nat.gcd in
/-- Counterexample to claim C9: `30.5-34.4Q` matches maritime pattern 2
with fractional degrees 30.5, yet `parse_coordinate` raises the invalid
hemisphere error, not a fractional-degrees one — the hemisphere check
precedes the fractional-degrees check. -/
theorem C9_counterexample :
    maritimeOf "30.5-34.4Q"
      = some (.dm ['3', '0', '.', '5'] ['3', '4', '.', '4'] 'Q') ∧
    tokVal ['3', '0', '.', '5']
      ≠ (pyIntTrunc (tokVal ['3', '0', '.', '5']) : ℚ) ∧
    parse_coordinate "30.5-34.4Q" "coordinate" true
      = .error (.invalidHemisphere 'Q') ∧
    (PyErr.invalidHemisphere 'Q' ≠ .fracDegMinutes ∧
      PyErr.invalidHemisphere 'Q' ≠ .fracDegMinSec) :=
  ⟨by decide, by decide, by decide, by decide, by decide⟩

unseal Rat.add Rat.mul Rat.sub Rat.inv Nat.gcd in
/-- Witness for the amended claim C9 at concrete inputs, for both
maritime shapes and both validate flags. -/
theorem C9_witness :
    parse_coordinate "30.5-34.4N" "coordinate" true = .error .fracDegMinutes ∧
    parse_coordinate "30.5-34.4N" "coordinate" false = .error .fracDegMinutes ∧
    parse_coordinate "30.5°34\x2724.0\x22N" "coordinate" true
      = .error .fracDegMinSec := by
  refine ⟨?_, ?_, ?_⟩
  · exact C9_amended.1 "30.5-34.4N" "coordinate" true
      ['3', '0', '.', '5'] ['3', '4', '.', '4'] 'N'
      (by decide) (by decide) (by decide)
  · exact C9_amended.1 "30.5-34.4N" "coordinate" false
      ['3', '0', '.', '5'] ['3', '4', '.', '4'] 'N'
      (by decide) (by decide) (by decide)
  · exact C9_amended.2 "30.5°34\x2724.0\x22N" "coordinate" true
      ['3', '0', '.', '5'] ['3', '4'] ['2', '4', '.', '0'] 'N'
      (by decide) (by decide) (by decide)

unseal Rat.add Rat.mul Rat.sub Rat.inv Nat.gcd in
/-- Witness for C5 at a concrete input. -/
theorem C5_witness :
    maritimeOf "1 2 3 4" = none ∧
    4 ≤ (findTokens (generalTransform "1 2 3 4")).length ∧
    ((findTokens (generalTransform "1 2 3 4")).map tokVal).getD 1 0 < 60 ∧
    ((findTokens (generalTransform "1 2 3 4")).map tokVal).getD 2 0 < 60 ∧
    parse_coordinate "1 2 3 4" "coordinate" true
      = .error (.notValidCoordinate "1 2 3 4") :=
  ⟨by decide, by decide, by decide, by decide,
    C5_four_tokens_generic_error "1 2 3 4" "coordinate" true
      (by decide) (by decide) (by decide) (by decide)⟩

/-- Scanning stops before an appended block whose characters all fail
the predicate. -/
theorem takeWhile_append_stop (p : Char → Bool) (A : List Char) {B : List Char}
    (hB : ∀ c ∈ B, p c = false) :
    (A ++ B).takeWhile p = A.takeWhile p := by
  induction A with
  | nil =>
    simp only [List.nil_append, List.takeWhile_nil]
    cases B with
    | nil => rfl
    | cons b bs => simp [List.takeWhile_cons, hB b (by simp)]
  | cons a as ih =>
    simp only [List.cons_append, List.takeWhile_cons]
    cases hpa : p a <;> simp [ih]

/-- Dropping stops before an appended block whose characters all fail
the predicate. -/
theorem dropWhile_append_stop (p : Char → Bool) (A : List Char) {B : List Char}
    (hB : ∀ c ∈ B, p c = false) :
    (A ++ B).dropWhile p = A.dropWhile p ++ B := by
  induction A with
  | nil =>
    simp only [List.nil_append, List.dropWhile_nil]
    cases B with
    | nil => rfl
    | cons b bs => simp [List.dropWhile_cons, hB b (by simp)]
  | cons a as ih =>
    simp only [List.cons_append, List.dropWhile_cons]
    cases hpa : p a <;> simp [ih]

/-- The tokenizer finds nothing in digit-free text. -/
theorem findTokensAux_no_digit :
    ∀ (n : Nat) (cs : List Char), (∀ c ∈ cs, isPyDigit c = false) →
      findTokensAux n cs = [] := by
  intro n
  induction n with
  | zero => intro cs _; rfl
  | succ n ih =>
    intro cs hcs
    cases cs with
    | nil => rfl
    | cons c rest =>
      simp only [findTokensAux]
      rw [if_neg (by simp [hcs c (by simp)])]
      exact ih rest (fun c hc => hcs c (by simp [hc]))

/-- The tokenizer finds nothing in the empty string, at any fuel. -/
theorem findTokensAux_nil (m : Nat) : findTokensAux m [] = [] := by
  cases m <;> rfl

/-- Dropping a digit run from a digit-headed list shortens it. -/
theorem length_dropWhile_le_of_head (c : Char) (rest : List Char)
    (hc : isPyDigit c = true) :
    ((c :: rest).dropWhile isPyDigit).length ≤ rest.length := by
  rw [List.dropWhile_cons, if_pos (by simp [hc])]
  have := List.takeWhile_append_dropWhile isPyDigit rest
  have hlen : (rest.takeWhile isPyDigit).length
      + (rest.dropWhile isPyDigit).length = rest.length := by
    rw [← List.length_append, this]
  omega

/-- The tokenizer is fuel-insensitive once the fuel covers the input
length. -/
theorem findTokensAux_fuel :
    ∀ (n : Nat) (cs : List Char) (m : Nat),
      cs.length ≤ n → cs.length ≤ m →
      findTokensAux n cs = findTokensAux m cs := by
  intro n
  induction n with
  | zero =>
    intro cs m hn _
    have : cs = [] := List.length_eq_zero.mp (Nat.le_zero.mp hn)
    subst this
    rw [findTokensAux_nil, findTokensAux_nil]
  | succ n ih =>
    intro cs m hn hm
    cases cs with
    | nil => rw [findTokensAux_nil, findTokensAux_nil]
    | cons c rest =>
      cases m with
      | zero => simp at hm
      | succ m =>
        simp only [findTokensAux]
        cases hc : isPyDigit c with
        | false =>
          simp only [hc, if_false, Bool.false_eq_true]
          exact ih rest m (by simpa using hn) (by simpa using hm)
        | true =>
          simp only [hc, if_true]
          have hdrop := length_dropWhile_le_of_head c rest hc
          rcases hr : (c :: rest).dropWhile isPyDigit with _ | ⟨sep, r2⟩
          · rfl
          · dsimp only
            have hr2len : r2.length + 1 ≤ rest.length := by
              rw [hr] at hdrop; simpa using hdrop
            have hd2 : (r2.dropWhile isPyDigit).length ≤ r2.length := by
              have := List.takeWhile_append_dropWhile isPyDigit r2
              have : (r2.takeWhile isPyDigit).length
                  + (r2.dropWhile isPyDigit).length = r2.length := by
                rw [← List.length_append, this]
              omega
            split_ifs with hsep hfs
            · rw [ih (sep :: r2) m (by simp at hn ⊢; omega)
                (by simp at hm ⊢; omega)]
            · rw [ih (r2.dropWhile isPyDigit) m (by simp at hn ⊢; omega)
                (by simp at hm ⊢; omega)]
            · rw [ih (sep :: r2) m (by simp at hn ⊢; omega)
                (by simp at hm ⊢; omega)]

/-- Appending token-inert characters (no digits, no separators) does not
change the token list, at a common sufficient fuel. -/
theorem findTokens_append_junk :
    ∀ (n : Nat) (A B : List Char), (A ++ B).length ≤ n →
      (∀ c ∈ B, isPyDigit c = false ∧ c ≠ '.' ∧ c ≠ ',') →
      findTokensAux n (A ++ B) = findTokensAux n A := by
  intro n
  induction n with
  | zero => intro A B _ _; rfl
  | succ n ih =>
    intro A B hn hB
    cases A with
    | nil =>
      rw [List.nil_append, findTokensAux_nil,
        findTokensAux_no_digit _ _ (fun c hc => (hB c hc).1)]
    | cons c rest =>
      simp only [List.cons_append, findTokensAux, List.append_eq]
      cases hc : isPyDigit c with
      | false =>
        simp only [hc, if_false, Bool.false_eq_true]
        exact ih rest B (by simpa using hn) hB
      | true =>
        simp only [hc, if_true]
        have hB1 : ∀ c ∈ B, isPyDigit c = false := fun c hc => (hB c hc).1
        have htw : ((c :: rest) ++ B).takeWhile isPyDigit
            = (c :: rest).takeWhile isPyDigit :=
          takeWhile_append_stop _ _ hB1
        have hdw : ((c :: rest) ++ B).dropWhile isPyDigit
            = (c :: rest).dropWhile isPyDigit ++ B :=
          dropWhile_append_stop _ _ hB1
        rw [List.cons_append] at htw hdw
        rw [htw, hdw]
        have hdrop := length_dropWhile_le_of_head c rest hc
        rcases hr : (c :: rest).dropWhile isPyDigit with _ | ⟨sep, r2⟩
        · rw [List.nil_append]
          cases B with
          | nil => rfl
          | cons b bs =>
            have hb := hB b (by simp)
            dsimp only
            rw [if_neg (by simp [hb.2.1, hb.2.2])]
            rw [findTokensAux_no_digit _ _ (fun x hx => hB1 x hx)]
        · have hr2len : r2.length + 1 ≤ rest.length := by
            rw [hr] at hdrop; simpa using hdrop
          have htw2 : (r2 ++ B).takeWhile isPyDigit = r2.takeWhile isPyDigit :=
            takeWhile_append_stop _ _ hB1
          have hdw2 : (r2 ++ B).dropWhile isPyDigit
              = r2.dropWhile isPyDigit ++ B :=
            dropWhile_append_stop _ _ hB1
          have hd2 : (r2.dropWhile isPyDigit).length ≤ r2.length := by
            have h0 := List.takeWhile_append_dropWhile isPyDigit r2
            have : (r2.takeWhile isPyDigit).length
                + (r2.dropWhile isPyDigit).length = r2.length := by
              rw [← List.length_append, h0]
            omega
          have hcons : sep :: (r2 ++ B) = (sep :: r2) ++ B := rfl
          rw [List.cons_append]
          dsimp only
          rw [htw2, hdw2, hcons]
          split_ifs with hsep hfs <;>
            first
              | rw [ih (sep :: r2) B (by simp at hn ⊢; omega) hB]
              | rw [ih (r2.dropWhile isPyDigit) B (by simp at hn ⊢; omega) hB]

/-- Appending token-inert characters (no digits, no separators) does not
change the token list. -/
theorem findTokens_append_inert (A B : List Char)
    (hB : ∀ c ∈ B, isPyDigit c = false ∧ c ≠ '.' ∧ c ≠ ',') :
    findTokens (A ++ B) = findTokens A := by
  unfold findTokens
  rw [findTokens_append_junk _ A B (le_refl _) hB]
  exact findTokensAux_fuel _ A _ (by simp) (le_refl _)

/-- The head surviving a `dropWhile` fails the predicate. -/
theorem dropWhile_head_false {p : Char → Bool} {cs : List Char} {c : Char}
    {t : List Char} (h : cs.dropWhile p = c :: t) : p c = false := by
  induction cs with
  | nil => simp at h
  | cons a as ih =>
    rw [List.dropWhile_cons] at h
    split_ifs at h with hpa
    · exact ih h
    · cases h
      simpa using hpa

/-- Left-stripping distributes over an append whose left part does not
strip away completely. -/
theorem stripL_append {A : List Char} (B : List Char) (h : pyStripL A ≠ []) :
    pyStripL (A ++ B) = pyStripL A ++ B := by
  induction A with
  | nil => simp [pyStripL] at h
  | cons a as ih =>
    simp only [pyStripL, List.cons_append, List.dropWhile_cons] at *
    split_ifs with hsp
    · simp only [hsp, if_true] at h
      exact ih h
    · rfl

/-- A list containing a non-space character does not left-strip to
nothing. -/
theorem stripL_ne_nil_of_mem {A : List Char} {c : Char} (hc : c ∈ A)
    (hns : isPySpace c = false) : pyStripL A ≠ [] := by
  induction A with
  | nil => simp at hc
  | cons a as ih =>
    simp only [pyStripL, List.dropWhile_cons]
    rcases List.mem_cons.mp hc with rfl | hmem
    · rw [if_neg (by simp [hns])]
      simp
    · split_ifs with hsp
      · exact ih hmem
      · simp

/-- Right-stripping is the identity when the last character is not
whitespace. -/
theorem stripR_append_nonspace (C : List Char) {h : Char}
    (hns : isPySpace h = false) : pyStripR (C ++ [h]) = C ++ [h] := by
  unfold pyStripR
  rw [List.reverse_append]
  simp only [List.reverse_cons, List.reverse_nil, List.nil_append,
    List.cons_append, List.nil_append, List.dropWhile_cons]
  rw [if_neg (by simp [hns])]
  simp

/-- Stripping a magnitude text followed by a space and a hemisphere
letter keeps the interior space. -/
theorem strip_shape {X : List Char} (c0 : Char) (t0 : List Char) {h : Char}
    (hX : pyStripL X = c0 :: t0) (hh : isPySpace h = false) :
    pyStrip (X ++ [' ', h]) = pyStripL X ++ [' ', h] := by
  unfold pyStrip
  have h1 : pyStripL (X ++ [' ', h]) = pyStripL X ++ [' ', h] :=
    stripL_append _ (by rw [hX]; simp)
  rw [h1, hX]
  have : (c0 :: t0) ++ [' ', h] = ((c0 :: t0) ++ [' ']) ++ [h] := by simp
  rw [this, stripR_append_nonspace _ hh]

/-- Stripping is the identity on an already-stripped text of this
shape. -/
theorem strip_shape_idem {Y : List Char} (c0 : Char) (t0 : List Char) {h : Char}
    (hY : Y = c0 :: t0) (hc0 : isPySpace c0 = false)
    (hh : isPySpace h = false) :
    pyStrip (Y ++ [' ', h]) = Y ++ [' ', h] := by
  subst hY
  unfold pyStrip
  have h1 : pyStripL ((c0 :: t0) ++ [' ', h]) = (c0 :: t0) ++ [' ', h] := by
    simp only [pyStripL, List.cons_append, List.dropWhile_cons]
    rw [if_neg (by simp [hc0])]
  rw [h1]
  have : (c0 :: t0) ++ [' ', h] = ((c0 :: t0) ++ [' ']) ++ [h] := by simp
  rw [this, stripR_append_nonspace _ hh]

/-- `str.replace` is the identity when some pattern character is absent
from the text. -/
theorem pyReplace_id_of_missing {pat : List Char} (rep : List Char)
    {cs : List Char} {b : Char} (hb : b ∈ pat) (hbc : b ∉ cs) :
    pyReplace cs pat rep = cs := by
  unfold pyReplace
  suffices hgen : ∀ (n : Nat) (l : List Char), b ∉ l →
      pyReplaceAux pat rep n l = l from hgen cs.length cs hbc
  intro n
  induction n with
  | zero => intro l _; rfl
  | succ n ih =>
    intro l hl
    cases l with
    | nil => rfl
    | cons c rest =>
      simp only [pyReplaceAux]
      rw [if_neg (by
        intro hpre
        exact hl ((List.isPrefixOf_iff_prefix.mp hpre).subset hb))]
      rw [ih rest (fun hmem => hl (by simp [hmem]))]

/-- The eight cardinal replacements are the identity on text containing
none of the letters o, a, t nor the four Cyrillic cardinal letters. -/
theorem pyReplaceAll_id {cs : List Char}
    (ho : 'o' ∉ cs) (ha : 'a' ∉ cs) (ht : 't' ∉ cs)
    (hc1 : 'с' ∉ cs) (hc2 : 'ю' ∉ cs) (hc3 : 'в' ∉ cs) (hc4 : 'з' ∉ cs) :
    pyReplaceAll cs = cs := by
  unfold pyReplaceAll cardinalReplacements
  simp only [List.foldl_cons, List.foldl_nil]
  rw [pyReplace_id_of_missing _ (show 'o' ∈ ['n','o','r','t','h'] by simp) ho,
    pyReplace_id_of_missing _ (show 'o' ∈ ['s','o','u','t','h'] by simp) ho,
    pyReplace_id_of_missing _ (show 'a' ∈ ['e','a','s','t'] by simp) ha,
    pyReplace_id_of_missing _ (show 't' ∈ ['w','e','s','t'] by simp) ht,
    pyReplace_id_of_missing _ (show 'с' ∈ ['с'] by simp) hc1,
    pyReplace_id_of_missing _ (show 'ю' ∈ ['ю'] by simp) hc2,
    pyReplace_id_of_missing _ (show 'в' ∈ ['в'] by simp) hc3,
    pyReplace_id_of_missing _ (show 'з' ∈ ['з'] by simp) hc4]

/-- A maritime number group is an initial segment of digits and at most
one dot. -/
theorem marNum_split {cs g r : List Char} (h : marNum cs = some (g, r)) :
    cs = g ++ r ∧ ∀ c ∈ g, isPyDigit c = true ∨ c = '.' := by
  simp only [marNum] at h
  split_ifs at h with hds
  split at h
  case _ r2 heq =>
    simp only [Option.some.injEq, Prod.mk.injEq] at h
    obtain ⟨hg, hrr⟩ := h
    subst hg; subst hrr
    constructor
    · conv_lhs => rw [← List.takeWhile_append_dropWhile isPyDigit cs]
      rw [heq, List.append_assoc, List.cons_append,
        List.takeWhile_append_dropWhile]
    · intro c hcg
      simp only [List.mem_append, List.mem_cons] at hcg
      rcases hcg with hm | rfl | hm
      · exact Or.inl (List.mem_takeWhile_imp hm)
      · exact Or.inr rfl
      · exact Or.inl (List.mem_takeWhile_imp hm)
  case _ =>
    simp only [Option.some.injEq, Prod.mk.injEq] at h
    obtain ⟨hg, hrr⟩ := h
    subst hg; subst hrr
    constructor
    · rw [List.takeWhile_append_dropWhile]
    · intro c hcg
      exact Or.inl (List.mem_takeWhile_imp hcg)

/-- Shape of a match of the optional-quote-letter-end tail fragment. -/
theorem marTailOptQuote_shape {cs : List Char} {hh : Char}
    (h : marTailOptQuote cs = some hh) :
    isUpperAZ hh = true ∧
      (cs = [hh] ∨ ∃ q, isQuoteMark q = true ∧ cs = [q, hh]) := by
  rcases cs with _ | ⟨a, _ | ⟨b, _ | ⟨c, t⟩⟩⟩ <;>
    simp only [marTailOptQuote] at h
  all_goals try exact Option.noConfusion h
  · split_ifs at h with h1 h2
    cases h
    exact ⟨h2, Or.inl rfl⟩
  · split_ifs at h with h1
    cases h
    simp only [Bool.and_eq_true] at h1
    exact ⟨h1.2, Or.inr ⟨a, h1.1, rfl⟩⟩

/-- Shape of a match of the letter-end tail fragment. -/
theorem marTailLetter_shape {cs : List Char} {hh : Char}
    (h : marTailLetter cs = some hh) : isUpperAZ hh = true ∧ cs = [hh] := by
  rcases cs with _ | ⟨a, _ | ⟨b, t⟩⟩ <;> simp only [marTailLetter] at h
  all_goals try exact Option.noConfusion h
  split_ifs at h with h1
  cases h
  exact ⟨h1, rfl⟩

/-- Number-group characters are never the space character. -/
theorem space_not_numchar {c : Char} (hc : isPyDigit c = true ∨ c = '.') :
    c ≠ ' ' := by
  rcases hc with hd | rfl
  · intro hceq; subst hceq; simp [isPyDigit] at hd
  · decide

/-- Maritime pattern 1 never matches text containing a space. -/
theorem matchP1_no_space {cs : List Char} {m : MarMatch}
    (h : matchP1 cs = some m) : ' ' ∉ cs := by
  unfold matchP1 at h
  split at h
  · exact absurd h (by simp)
  case _ d r1 hnum =>
    split at h
    case _ dash r2 =>
      split_ifs at h with hdash
      split at h
      · exact absurd h (by simp)
      case _ m2 r3 hnum2 =>
        split at h
        · exact absurd h (by simp)
        case _ hh htail =>
          obtain ⟨hcs, hd⟩ := marNum_split hnum
          obtain ⟨hr2, hm2⟩ := marNum_split hnum2
          obtain ⟨hup, hsh⟩ := marTailOptQuote_shape htail
          subst hcs
          intro hmem
          simp only [List.mem_append, List.mem_cons] at hmem
          rcases hmem with hmm | hmm | hmm
          · exact space_not_numchar (hd _ hmm) rfl
          · exact absurd hmm (by decide)
          · rcases hmm with rfl | hmm
            · simp [isDashMark] at hdash
            · rw [hr2] at hmm
              simp only [List.mem_append] at hmm
              rcases hmm with hmm | hmm
              · exact space_not_numchar (hm2 _ hmm) rfl
              · rcases hsh with rfl | ⟨q, hq, rfl⟩
                · simp only [List.mem_singleton] at hmm
                  subst hmm
                  exact absurd hup (by decide)
                · simp only [List.mem_cons, List.mem_singleton] at hmm
                  rcases hmm with rfl | rfl | hf
                  · exact absurd hq (by decide)
                  · exact absurd hup (by decide)
                  · simp at hf
    all_goals exact absurd h (by simp)

/-- Maritime pattern 2 never matches text containing a space. -/
theorem matchP2_no_space {cs : List Char} {m : MarMatch}
    (h : matchP2 cs = some m) : ' ' ∉ cs := by
  unfold matchP2 at h
  split at h
  · exact absurd h (by simp)
  case _ d r1 hnum =>
    split at h
    case _ dash r2 =>
      split_ifs at h with hdash
      split at h
      · exact absurd h (by simp)
      case _ m2 r3 hnum2 =>
        split at h
        · exact absurd h (by simp)
        case _ hh htail =>
          obtain ⟨hcs, hd⟩ := marNum_split hnum
          obtain ⟨hr2, hm2⟩ := marNum_split hnum2
          obtain ⟨hup, hsh⟩ := marTailLetter_shape htail
          subst hcs
          intro hmem
          simp only [List.mem_append, List.mem_cons] at hmem
          rcases hmem with hmm | rfl | hmm
          · exact space_not_numchar (hd _ hmm) rfl
          · simp [isDashMark] at hdash
          · rw [hr2] at hmm
            simp only [List.mem_append] at hmm
            rcases hmm with hmm | hmm
            · exact space_not_numchar (hm2 _ hmm) rfl
            · rw [hsh] at hmm
              simp only [List.mem_singleton] at hmm
              subst hmm
              exact absurd hup (by decide)
    case _ => exact absurd h (by simp)

/-- Maritime pattern 3 never matches text containing a space. -/
theorem matchP3_no_space {cs : List Char} {m : MarMatch}
    (h : matchP3 cs = some m) : ' ' ∉ cs := by
  unfold matchP3 at h
  split at h
  · exact absurd h (by simp)
  case _ d r1 hnum =>
    split at h
    case _ r2 =>
      split at h
      · exact absurd h (by simp)
      case _ m2 r3 hnum2 =>
        split at h
        · exact absurd h (by simp)
        case _ hh htail =>
          obtain ⟨hcs, hd⟩ := marNum_split hnum
          obtain ⟨hr2, hm2⟩ := marNum_split hnum2
          obtain ⟨hup, hsh⟩ := marTailOptQuote_shape htail
          subst hcs
          intro hmem
          simp only [List.mem_append, List.mem_cons] at hmem
          rcases hmem with hmm | heq | hmm
          · exact space_not_numchar (hd _ hmm) rfl
          · exact absurd heq (by decide)
          · rw [hr2] at hmm
            simp only [List.mem_append] at hmm
            rcases hmm with hmm | hmm
            · exact space_not_numchar (hm2 _ hmm) rfl
            · rcases hsh with rfl | ⟨q, hq, rfl⟩
              · simp only [List.mem_singleton] at hmm
                subst hmm
                exact absurd hup (by decide)
              · simp only [List.mem_cons, List.mem_singleton] at hmm
                rcases hmm with rfl | rfl | hf
                · exact absurd hq (by decide)
                · exact absurd hup (by decide)
                · simp at hf
    all_goals exact absurd h (by simp)

/-- Maritime pattern 4 never matches text containing a space. -/
theorem matchP4_no_space {cs : List Char} {m : MarMatch}
    (h : matchP4 cs = some m) : ' ' ∉ cs := by
  unfold matchP4 at h
  split at h
  · exact absurd h (by simp)
  case _ d r1 hnum =>
    split at h
    case _ r2 =>
      split at h
      · exact absurd h (by simp)
      case _ m2 r3 hnum2 =>
        split at h
        case _ q1 r4 =>
          split_ifs at h with hq1
          split at h
          · exact absurd h (by simp)
          case _ sg r5 hnum3 =>
            split at h
            case _ q2 c2 =>
              split_ifs at h with hqc
              simp only [Bool.and_eq_true] at hqc
              obtain ⟨hcs, hd⟩ := marNum_split hnum
              obtain ⟨hr2, hm2⟩ := marNum_split hnum2
              obtain ⟨hr4, hsg⟩ := marNum_split hnum3
              subst hcs
              intro hmem
              simp only [List.mem_append, List.mem_cons] at hmem
              rcases hmem with hmm | heq | hmm
              · exact space_not_numchar (hd _ hmm) rfl
              · exact absurd heq (by decide)
              · rw [hr2] at hmm
                simp only [List.mem_append] at hmm
                rcases hmm with hmm | hmm
                · exact space_not_numchar (hm2 _ hmm) rfl
                · simp only [List.mem_cons] at hmm
                  rcases hmm with rfl | hmm
                  · exact absurd hq1 (by decide)
                  · rw [hr4] at hmm
                    simp only [List.mem_append, List.mem_cons,
                      List.mem_singleton] at hmm
                    rcases hmm with hmm | rfl | rfl | hf
                    · exact space_not_numchar (hsg _ hmm) rfl
                    · exact absurd hqc.1 (by decide)
                    · exact absurd hqc.2 (by decide)
                    · simp at hf
            all_goals exact absurd h (by simp)
        all_goals exact absurd h (by simp)
    all_goals exact absurd h (by simp)

/-- No maritime pattern matches text containing a space. -/
theorem maritimeFind_no_space {cs : List Char} (hsp : ' ' ∈ cs) :
    maritimeFind cs = none := by
  unfold maritimeFind
  rcases h1 : matchP1 cs with _ | m1
  · rcases h2 : matchP2 cs with _ | m2
    · rcases h3 : matchP3 cs with _ | m3
      · rcases h4 : matchP4 cs with _ | m4
        · rfl
        · exact absurd hsp (matchP4_no_space h4)
      · exact absurd hsp (matchP3_no_space h3)
    · exact absurd hsp (matchP2_no_space h2)
  · exact absurd hsp (matchP1_no_space h1)

/-- Digits are not whitespace. -/
theorem digit_not_space {c : Char} (hd : isPyDigit c = true) :
    isPySpace c = false := by
  by_contra hsp
  simp only [Bool.not_eq_false, isPySpace, Bool.or_eq_true,
    decide_eq_true_eq] at hsp
  rcases hsp with ((((rfl | rfl) | rfl) | rfl) | rfl) | rfl <;>
    simp [isPyDigit] at hd

/-- Lower-cased magnitude characters avoid every character the cardinal
replacements and the sign detection react to. -/
theorem mag_lower_facts {c : Char} (hc : magChar c = true) :
    pyLowerChar c ≠ 'o' ∧ pyLowerChar c ≠ 'a' ∧ pyLowerChar c ≠ 't' ∧
    pyLowerChar c ≠ 'с' ∧ pyLowerChar c ≠ 'ю' ∧ pyLowerChar c ≠ 'в' ∧
    pyLowerChar c ≠ 'з' ∧ pyLowerChar c ≠ '-' ∧ pyLowerChar c ≠ 'w' ∧
    pyLowerChar c ≠ 's' := by
  have hmem : c ∈ magChars := by
    simpa [magChar] using hc
  fin_cases hmem <;> decide

/-- A successful general branch returns the combined value with the sign
applied by `pyCopysign`. -/
theorem generalBody_ok_val {T : List (List Char)} {neg : Int} {orig k : String}
    {v : Bool} {a : ℚ} (h : generalBody T neg orig k v = .ok (some a)) :
    ∃ val, to_dec_deg (T.map tokVal) = .ok val ∧ a = pyCopysign val neg := by
  simp only [generalBody] at h
  rcases htd : to_dec_deg (T.map tokVal) with e1 | val <;>
    rw [htd] at h <;> dsimp only at h <;> split_ifs at h
  · exact ⟨val, rfl, Option.some.inj (validate_ok_eq h)⟩
  · exact ⟨val, rfl, (Option.some.inj (Except.ok.inj h)).symm⟩

/-- Master computation: parsing a magnitude text followed by a space and
a hemisphere letter takes the general branch with the token list of the
lower-cased stripped magnitude and the sign selected by the hemisphere
letter alone. -/
theorem pair_mag_parse (X : String) (hu hl : Char)
    (hpair : (hu = 'N' ∧ hl = 'n') ∨ (hu = 'S' ∧ hl = 's') ∨
      (hu = 'E' ∧ hl = 'e') ∨ (hu = 'W' ∧ hl = 'w'))
    (hmag : isMagnitudeText X = true) (k : String) (v : Bool) :
    parse_coordinate (X ++ String.mk [' ', hu]) k v =
      match generalBody (findTokens ((pyStripL X.data).map pyLowerChar))
          (if hl = 'w' ∨ hl = 's' then -1 else 1)
          (X ++ String.mk [' ', hu]) k v with
      | .ok x => .ok x
      | .error e =>
        if errReraise e then .error e
        else .error (.notValidCoordinate (X ++ String.mk [' ', hu])) := by
  simp only [isMagnitudeText, Bool.and_eq_true, List.all_eq_true,
    List.any_eq_true] at hmag
  obtain ⟨hall, cd, hcd, hcddig⟩ := hmag
  have hdata : (X ++ String.mk [' ', hu]).data = X.data ++ [' ', hu] :=
    String.data_append X (String.mk [' ', hu])
  have hueq : isPySpace hu = false := by
    rcases hpair with ⟨rfl, rfl⟩ | ⟨rfl, rfl⟩ | ⟨rfl, rfl⟩ | ⟨rfl, rfl⟩ <;> decide
  have hlow : pyLowerChar hu = hl := by
    rcases hpair with ⟨rfl, rfl⟩ | ⟨rfl, rfl⟩ | ⟨rfl, rfl⟩ | ⟨rfl, rfl⟩ <;> decide
  have hSne : pyStripL X.data ≠ [] :=
    stripL_ne_nil_of_mem hcd (digit_not_space hcddig)
  obtain ⟨c0, t0, hc0⟩ : ∃ c0 t0, pyStripL X.data = c0 :: t0 := by
    rcases he : pyStripL X.data with _ | ⟨c0, t0⟩
    · exact absurd he hSne
    · exact ⟨c0, t0, rfl⟩
  have hc0ns : isPySpace c0 = false := dropWhile_head_false hc0
  have hstriplx : strippedOf (X ++ String.mk [' ', hu])
      = pyStripL X.data ++ [' ', hu] := by
    unfold strippedOf
    rw [hdata]
    exact strip_shape c0 t0 hc0 hueq
  have hstrip2 : pyStrip (strippedOf (X ++ String.mk [' ', hu]))
      = pyStripL X.data ++ [' ', hu] := by
    rw [hstriplx]
    exact strip_shape_idem c0 t0 hc0 hc0ns hueq
  have hmarnone : maritimeOf (X ++ String.mk [' ', hu]) = none := by
    unfold maritimeOf
    rw [hstrip2]
    exact maritimeFind_no_space (by simp)
  have hmagsub : ∀ c ∈ pyStripL X.data, magChar c = true := by
    intro c hcmem
    exact hall c ((List.dropWhile_sublist _).subset hcmem)
  have htrans : generalTransform (X ++ String.mk [' ', hu])
      = (pyStripL X.data).map pyLowerChar ++ [' ', hl] := by
    unfold generalTransform
    rw [hstrip2, List.map_append]
    simp only [List.map_cons, List.map_nil, hlow]
    rw [show pyLowerChar ' ' = ' ' from by decide]
    apply pyReplaceAll_id <;>
      (intro hmem
       simp only [List.mem_append, List.mem_map, List.mem_cons,
         List.mem_singleton] at hmem
       rcases hmem with ⟨c, hcmem, hceq⟩ | heq | heq
       · have hf := mag_lower_facts (hmagsub c hcmem)
         rcases hpair with ⟨rfl, rfl⟩ | ⟨rfl, rfl⟩ | ⟨rfl, rfl⟩ | ⟨rfl, rfl⟩ <;>
           simp_all
       · exact absurd heq.symm (by decide)
       · rcases hpair with ⟨rfl, rfl⟩ | ⟨rfl, rfl⟩ | ⟨rfl, rfl⟩ | ⟨rfl, rfl⟩ <;>
           simp_all)
  have hY : ((pyStripL X.data).map pyLowerChar) = pyLowerChar c0 ::
      t0.map pyLowerChar := by
    rw [hc0]; rfl
  have hneg : generalNeg ((pyStripL X.data).map pyLowerChar ++ [' ', hl])
      = (if hl = 'w' ∨ hl = 's' then -1 else 1) := by
    unfold generalNeg
    rw [List.getLast?_append_of_ne_nil _ (by simp)]
    rw [hY]
    rw [List.head?_append_of_ne_nil _ (by simp)]
    simp only [List.head?_cons, List.getLast?_cons_cons,
      List.getLast?_singleton, Option.some.injEq]
    have hf := mag_lower_facts (hmagsub c0 (by rw [hc0]; simp))
    rw [if_neg (by
      rintro (heq | heq | heq) <;> simp_all)]
  have htoks : findTokens ((pyStripL X.data).map pyLowerChar ++ [' ', hl])
      = findTokens ((pyStripL X.data).map pyLowerChar) := by
    apply findTokens_append_inert
    intro c hcmem
    simp only [List.mem_cons, List.mem_singleton] at hcmem
    rcases hcmem with rfl | rfl | hf
    · decide
    · rcases hpair with ⟨-, rfl⟩ | ⟨-, rfl⟩ | ⟨-, rfl⟩ | ⟨-, rfl⟩ <;> decide
    · simp at hf
  unfold parse_coordinate
  rw [if_neg (by rw [hstriplx]; simp)]
  rw [hmarnone]
  dsimp only
  rw [htrans, htoks, hneg]

/-- The `except ValueError` dispatch is transparent on success. -/
theorem match_wrap_ok {g : Except PyErr (Option ℚ)} {s : String}
    {x : Option ℚ}
    (h : (match g with
          | .ok y => .ok y
          | .error e =>
            if errReraise e then .error e
            else .error (.notValidCoordinate s)) = Except.ok x) :
    g = .ok x := by
  rcases g with e | y <;> dsimp only at h
  · split_ifs at h
  · exact congrArg Except.ok (Except.ok.inj h)

/-- A successful parse of a magnitude-hemisphere string pins down the
general branch result. -/
theorem parse_body_ok {X : String} {hu hl : Char} {k : String} {v : Bool}
    {a : ℚ}
    (hpair : (hu = 'N' ∧ hl = 'n') ∨ (hu = 'S' ∧ hl = 's') ∨
      (hu = 'E' ∧ hl = 'e') ∨ (hu = 'W' ∧ hl = 'w'))
    (hmag : isMagnitudeText X = true)
    (hA : parse_coordinate (X ++ String.mk [' ', hu]) k v = .ok (some a)) :
    generalBody (findTokens ((pyStripL X.data).map pyLowerChar))
      (if hl = 'w' ∨ hl = 's' then -1 else 1)
      (X ++ String.mk [' ', hu]) k v = .ok (some a) := by
  rw [pair_mag_parse X hu hl hpair hmag k v] at hA
  exact match_wrap_ok hA

/-- Claim C6: sign symmetry of `parse_coordinate` — for a magnitude text
X, whenever both parses succeed, X followed by " N" parses to the
negation of X followed by " S", and likewise for " E" and " W". -/
theorem C6_sign_symmetry :
    ∀ (X k : String) (v : Bool), isMagnitudeText X = true →
      (∀ a b : ℚ,
        parse_coordinate (X ++ " N") k v = .ok (some a) →
        parse_coordinate (X ++ " S") k v = .ok (some b) → a = -b) ∧
      (∀ a b : ℚ,
        parse_coordinate (X ++ " E") k v = .ok (some a) →
        parse_coordinate (X ++ " W") k v = .ok (some b) → a = -b) := by
  intro X k v hmag
  have hcop : ∀ val : ℚ, pyCopysign val 1 = -pyCopysign val (-1) := by
    intro val
    simp only [pyCopysign]
    rw [if_neg (by norm_num), if_pos (by norm_num)]
    ring
  constructor
  · intro a b hA hB
    rw [show (" N" : String) = String.mk [' ', 'N'] from rfl] at hA
    rw [show (" S" : String) = String.mk [' ', 'S'] from rfl] at hB
    have hgN := parse_body_ok (Or.inl ⟨rfl, rfl⟩) hmag hA
    have hgS := parse_body_ok (Or.inr (Or.inl ⟨rfl, rfl⟩)) hmag hB
    rw [show (if ('n' = 'w' ∨ 'n' = 's') then (-1 : Int) else 1) = 1
      from by decide] at hgN
    rw [show (if ('s' = 'w' ∨ 's' = 's') then (-1 : Int) else 1) = -1
      from by decide] at hgS
    obtain ⟨valN, htdN, haN⟩ := generalBody_ok_val hgN
    obtain ⟨valS, htdS, hbS⟩ := generalBody_ok_val hgS
    rw [htdN] at htdS
    cases Except.ok.inj htdS
    rw [haN, hbS]
    exact hcop valN
  · intro a b hA hB
    rw [show (" E" : String) = String.mk [' ', 'E'] from rfl] at hA
    rw [show (" W" : String) = String.mk [' ', 'W'] from rfl] at hB
    have hgN := parse_body_ok (Or.inr (Or.inr (Or.inl ⟨rfl, rfl⟩))) hmag hA
    have hgS := parse_body_ok (Or.inr (Or.inr (Or.inr ⟨rfl, rfl⟩))) hmag hB
    rw [show (if ('e' = 'w' ∨ 'e' = 's') then (-1 : Int) else 1) = 1
      from by decide] at hgN
    rw [show (if ('w' = 'w' ∨ 'w' = 's') then (-1 : Int) else 1) = -1
      from by decide] at hgS
    obtain ⟨valN, htdN, haN⟩ := generalBody_ok_val hgN
    obtain ⟨valS, htdS, hbS⟩ := generalBody_ok_val hgS
    rw [htdN] at htdS
    cases Except.ok.inj htdS
    rw [haN, hbS]
    exact hcop valN

unseal Rat.add Rat.mul Rat.sub Rat.inv Nat.gcd in
/-- Witness for C6 at a concrete magnitude. -/
theorem C6_witness :
    isMagnitudeText "23.4" = true ∧
    parse_coordinate ("23.4" ++ " N") "coordinate" true = .ok (some (117 / 5)) ∧
    parse_coordinate ("23.4" ++ " S") "coordinate" true
      = .ok (some (-(117 / 5))) ∧
    parse_coordinate ("23.4" ++ " E") "coordinate" true = .ok (some (117 / 5)) ∧
    parse_coordinate ("23.4" ++ " W") "coordinate" true
      = .ok (some (-(117 / 5))) ∧
    (117 / 5 : ℚ) = -(-(117 / 5) : ℚ) := by
  refine ⟨by decide, by decide, by decide, by decide, by decide, ?_⟩
  exact (C6_sign_symmetry "23.4" "coordinate" true (by decide)).1
    (117 / 5) (-(117 / 5)) (by decide) (by decide)
